import Mathlib

/-!
Verification development for the obadgen image-baking subsystem.

This file shallowly embeds the three components of the baking core:

* `ImageType.tryFrom` — the file-path classifier of `src/patcher/mod.rs`
  (`impl TryFrom<&Path> for ImageType`);
* `Png.rewrite`      — the PNG baking algorithm of `src/patcher/png.rs`
  (`impl Patcher for Patcher`), modelled over the decoded chunk inventory
  that the `png` crate exposes (three per-kind text-chunk vectors plus a
  stream of frame-decoding results);
* `Svg.rewrite`      — the streaming SVG baking algorithm of
  `src/patcher/svg.rs`, modelled over the XML event stream that
  `xml-rs` exposes (reader events in, writer events out).

Machine-level aspects (file handles, buffered IO, compression) are outside
the embedding; every data transformation the Rust code performs on the
decoded representations is translated directly.
-/

/-! Common error type.  `Error::VerifyAlreadySet` of `src/patcher/mod.rs` is
the only error constructed by the patching logic itself; IO and codec
failures enter through `?`/`map_err` on external calls, which the embedding
represents where the claims need them (the frame stream of `Png.rewrite`). -/

/-- Model of `patcher::Error::VerifyAlreadySet { present, proposed }`. -/
inductive RewriteError where
  | verifyAlreadySet (present : String) (proposed : String)
deriving DecidableEq, Repr

/-! The PNG patcher, `src/patcher/png.rs`. -/

/-- The three PNG text-chunk kinds handled by `Patcher::rewrite` in
`src/patcher/png.rs`: `tEXt` (`info.uncompressed_latin1_text`),
`zTXt` (`info.compressed_latin1_text`) and `iTXt` (`info.utf8_text`). -/
inductive ChunkKind where
  | tEXt
  | zTXt
  | iTXt
deriving DecidableEq, Repr

/-- A decoded PNG text chunk: kind, keyword and (decompressed) text.
Texts are stored decoded; `get_text()` decompression is assumed to
succeed, as the claims under study do not concern zTXt decompression
failures. -/
structure TextChunk where
  kind : ChunkKind
  keyword : String
  text : String
deriving DecidableEq, Repr

/-- The `info.uncompressed_latin1_text` vector the `png` crate decoder
builds: the source file's tEXt chunks in stream order. -/
def uncompressedLatin1Text (chunks : List TextChunk) : List TextChunk :=
  chunks.filter (fun c => c.kind = ChunkKind.tEXt)

/-- The `info.compressed_latin1_text` vector: the source file's zTXt chunks
in stream order. -/
def compressedLatin1Text (chunks : List TextChunk) : List TextChunk :=
  chunks.filter (fun c => c.kind = ChunkKind.zTXt)

/-- The `info.utf8_text` vector: the source file's iTXt chunks in stream
order. -/
def utf8Text (chunks : List TextChunk) : List TextChunk :=
  chunks.filter (fun c => c.kind = ChunkKind.iTXt)

/-- The iTXt re-encoding loop of `Patcher::rewrite` (`png.rs` lines
136-157): walks the source iTXt chunks in order; a chunk whose keyword is
`"openbadges"` is kept when its text equals the proposed payload (setting
`verify_already_as_proposed`), aborts the rewrite when it differs and
`fail_if_verify_present` is set, and is skipped otherwise; every other
chunk is re-emitted unchanged.  Returns the kept chunks and the final
`verify_already_as_proposed` flag. -/
def processItxt (verify : String) (failIfVerifyPresent : Bool) :
    List TextChunk → Except RewriteError (List TextChunk × Bool)
  | [] => .ok ([], false)
  | c :: rest =>
    if c.keyword = "openbadges" then
      if c.text = verify then
        match processItxt verify failIfVerifyPresent rest with
        | .error e => .error e
        | .ok (tail, _) => .ok (c :: tail, true)
      else if failIfVerifyPresent then
        .error (.verifyAlreadySet c.text verify)
      else
        processItxt verify failIfVerifyPresent rest
    else
      match processItxt verify failIfVerifyPresent rest with
      | .error e => .error e
      | .ok (tail, flag) => .ok (c :: tail, flag)

/-- The frame-copying loop of `Patcher::rewrite` (`png.rs` lines 169-177):
`while let Ok(info) = reader.next_frame(&mut buf)` copies frames until the
first frame whose decoding fails (`none` models a `DecodingError` from
`next_frame`; `some f` a successfully decoded frame buffer), at which
point the loop simply stops. -/
def copyFrames : List (Option (List Nat)) → List (List Nat)
  | [] => []
  | none :: _ => []
  | some f :: rest => f :: copyFrames rest

/-- The PNG baking algorithm, `Patcher::rewrite` of `src/patcher/png.rs`,
over a source file given as its text-chunk inventory (in stream order) and
its frame-decoding results.  The output is the chunk sequence of the
re-encoded file — the encoder emits the buffered tEXt chunks, then the
buffered zTXt chunks, then the kept iTXt chunks, then (after
`write_header`) the freshly created `openbadges` marker when no source
marker already carried the proposed text — together with the copied frame
buffers.  An `Except.error` result models `rewrite` returning `Err`
before the output is finalized. -/
def Png.rewrite (chunks : List TextChunk) (frames : List (Option (List Nat)))
    (verify : String) (failIfVerifyPresent : Bool) :
    Except RewriteError (List TextChunk × List (List Nat)) :=
  match processItxt verify failIfVerifyPresent (utf8Text chunks) with
  | .error e => .error e
  | .ok (kept, verifyAlreadyAsProposed) =>
    let marker : List TextChunk :=
      if verifyAlreadyAsProposed then []
      else [⟨ChunkKind.iTXt, "openbadges", verify⟩]
    .ok (uncompressedLatin1Text chunks ++ compressedLatin1Text chunks ++
          kept ++ marker,
        copyFrames frames)

/-! The file-path classifier, `src/patcher/mod.rs`. -/

/-- Model of the `OsStr` a `Path::extension()` call yields: `toStr` is
`none` exactly when the platform string is not valid UTF-8
(`OsStr::to_str` returning `None`). -/
structure OsStrModel where
  toStr : Option String
deriving DecidableEq, Repr

/-- Model of the part of `std::path::Path` that
`TryFrom<&Path> for ImageType` consumes: the result of
`Path::extension()` — `none` when the path carries no extension. -/
structure PathModel where
  extension : Option OsStrModel
deriving DecidableEq, Repr

/-- `patcher::ImageType` of `src/patcher/mod.rs`. -/
inductive ImageType where
  | svg
  | png
deriving DecidableEq, Repr

/-- `patcher::ToImageTypeError` of `src/patcher/mod.rs` (the `path` payload
carried by both variants is not tracked). -/
inductive ToImageTypeError where
  | extensionExtraction (msg : String)
  | unsupported (ext : String)
deriving DecidableEq, Repr

/-- Model of `str::to_lowercase` / the case-insensitive comparisons the
patcher performs: per-character ASCII lowercasing.  Rust's
`str::to_lowercase` is Unicode-aware, but the two agree on every string
whose lowercase form could equal the ASCII targets compared against
(`"svg"`, `"png"`). -/
def strToLower (s : String) : String := ⟨s.data.map Char.toLower⟩

/-- The classifier `impl TryFrom<&Path> for ImageType` of
`src/patcher/mod.rs` lines 30-56: extract the extension (error when
missing), convert it to UTF-8 (error when impossible), lowercase it and
match `"svg"`/`"png"`, with any other extension rejected as
`Unsupported`.  The function inspects only the path value — the Rust code
performs no filesystem access (`Path::extension` and `OsStr::to_str` are
pure string operations) — and its error type is `ToImageTypeError`, not an
IO error. -/
def ImageType.tryFrom (p : PathModel) : Except ToImageTypeError ImageType :=
  match p.extension with
  | none => .error (.extensionExtraction "No file extension present")
  | some os =>
    match os.toStr with
    | none => .error (.extensionExtraction "File extension is not UTF-8 compatible")
    | some ext =>
      let extLower := strToLower ext
      if extLower = "svg" then .ok ImageType.svg
      else if extLower = "png" then .ok ImageType.png
      else .error (.unsupported ext)

/-! The SVG patcher, `src/patcher/svg.rs`. -/

/-- A qualified XML name as `xml-rs` represents it: optional prefix,
local name, and the namespace URI the reader resolved the prefix to
(`None` when the element is in no namespace). -/
structure QName where
  pfx : Option String
  localName : String
  nsUri : Option String
deriving DecidableEq, Repr

/-- An XML event.  `startElement` carries the attribute list
(attribute local name, value — attribute prefixes are never inspected by
the patcher) and the namespace mapping (prefix, URI) attached to the
event; for reader events `xml-rs` attaches the full in-scope mapping.
`endDocument` is the one reader event whose `as_writer_event()` is
`None`. -/
inductive XEvent where
  | startDocument
  | startElement (name : QName) (attrs : List (String × String))
      (ns : List (String × String))
  | endElement (name : QName)
  | characters (s : String)
  | comment (s : String)
  | endDocument
deriving DecidableEq, Repr

/-- `evt_in.as_writer_event()` (`svg.rs` line 113): every event has a
writer equivalent except `EndDocument`. -/
def writerEvent : XEvent → Option XEvent
  | .endDocument => none
  | e => some e

/-- The Open Badges namespace URI (`svg.rs` lines 81 and 131). -/
def obNS : String := "http://openbadges.org"

/-- The SVG namespace URI (`svg.rs` line 72). -/
def svgNS : String := "http://www.w3.org/2000/svg"

/-- The root-element test of `add_namespace` (`svg.rs` lines 70-73): local
name lowercases to `"svg"` and the namespace is absent or the SVG
namespace. -/
def isSvgStartName (n : QName) : Bool :=
  strToLower n.localName = "svg" &&
    (n.nsUri = none || n.nsUri = some svgNS)

/-- Whether an event is a start element passing the `add_namespace` root
test (such an event sets `passed_init_elem`). -/
def isSvgCondStart : XEvent → Bool
  | .startElement n _ _ => isSvgStartName n
  | _ => false

/-- `Namespace::contains` on the prefix `"openbadges"` (`svg.rs` line 75):
a prefix lookup only — the URI the prefix is bound to is not examined. -/
def nsContainsOb (ns : List (String × String)) : Bool :=
  ns.any (fun m => m.1 = "openbadges")

/-- The namespace mapping after the injection step of `add_namespace`
(`svg.rs` lines 75-82): unchanged when the prefix `openbadges` is already
declared (to whatever URI), otherwise extended with
`openbadges -> obNS`. -/
def withObNs (ns : List (String × String)) : List (String × String) :=
  if nsContainsOb ns then ns else ns ++ [("openbadges", obNS)]

/-- `add_namespace` (`svg.rs` lines 57-92) without its writing side:
given the optional writer event, returns the events actually written and
the new value of `passed_init_elem`.  On a start element passing the root
test it sets the flag and injects the `openbadges -> obNS` mapping when
the prefix is absent; every other event (and the `None` conversion) passes
through leaving the flag untouched (the caller has already reset it to
`false`). -/
def addNamespace : Option XEvent → List XEvent × Bool
  | some (.startElement n attrs ns) =>
    if isSvgStartName n then
      ([.startElement n attrs (withObNs ns)], true)
    else
      ([.startElement n attrs ns], false)
  | some e => ([e], false)
  | none => ([], false)

/-- The `is_ob_assert` test of `Patcher::rewrite` (`svg.rs` lines
125-141): a start element whose resolved namespace is `obNS` and whose
local name is `"assertion"`. -/
def isObAssert : XEvent → Bool
  | .startElement n _ _ => n.nsUri = some obNS && n.localName = "assertion"
  | _ => false

/-- The `verify_attr_val` extraction (`svg.rs` lines 134-138): the loop
keeps overwriting, so the last attribute with local name `"verify"`
wins. -/
def verifyAttrVal : XEvent → Option String
  | .startElement _ attrs _ =>
    attrs.foldl (fun acc a => if a.1 = "verify" then some a.2 else acc) none
  | _ => none

/-- The name under which `add_assertion` (and the overwrite branch) write
the marker element: `start_element("openbadges:assertion")` — a prefixed
writer name, carrying no resolved namespace URI. -/
def obAssertName : QName := ⟨some "openbadges", "assertion", none⟩

/-- The start element written by `add_assertion` (`svg.rs` lines 46-47)
and by the overwrite branch (lines 155-159): a fresh
`openbadges:assertion` element whose only attribute is `verify`. -/
def newAssertStart (verify : String) : XEvent :=
  .startElement obAssertName [("verify", verify)] []

/-- The start + end element pair `add_assertion` writes (`svg.rs` lines
46-52). -/
def assertPair (verify : String) : List XEvent :=
  [newAssertStart verify, .endElement obAssertName]

/-- The `passed_init_elem` handling block of `Patcher::rewrite`
(`svg.rs` lines 115-175): the event following a root-test success is
examined — an `openbadges:assertion` start whose `verify` attribute
equals the proposal is forwarded unchanged, one with a different value
aborts (strict mode) or is replaced by a fresh marker element, and
anything else (including an assertion lacking the attribute) has a fresh
marker pair written before it; the flag is then reset and the (possibly
replaced) event handed to `add_namespace`. -/
def svgStepTrue (verify : String) (failIfVerifyPresent : Bool)
    (evt : XEvent) : Except RewriteError (List XEvent × Bool) :=
  if isObAssert evt then
    match verifyAttrVal evt with
    | some val =>
      if val = verify then
        .ok (addNamespace (writerEvent evt))
      else if failIfVerifyPresent then
        .error (.verifyAlreadySet val verify)
      else
        .ok (addNamespace (some (newAssertStart verify)))
    | none =>
      .ok (assertPair verify ++ (addNamespace (writerEvent evt)).1,
        (addNamespace (writerEvent evt)).2)
  else
    .ok (assertPair verify ++ (addNamespace (writerEvent evt)).1,
      (addNamespace (writerEvent evt)).2)

/-- One iteration of the `for evt_in_res in parser` loop of
`Patcher::rewrite` (`svg.rs` lines 111-177), given the incoming value of
`passed_init_elem`.  Returns the events written and the outgoing flag. -/
def svgStep (verify : String) (failIfVerifyPresent : Bool) (passed : Bool)
    (evt : XEvent) : Except RewriteError (List XEvent × Bool) :=
  if passed then
    svgStepTrue verify failIfVerifyPresent evt
  else
    .ok (addNamespace (writerEvent evt))

/-- The event loop of `Patcher::rewrite` (`svg.rs` lines 111-177),
threading `passed_init_elem` through `svgStep`; an error aborts the loop
(the Rust `return Err(..)`). -/
def Svg.rewriteLoop (verify : String) (failIfVerifyPresent : Bool) :
    Bool → List XEvent → Except RewriteError (List XEvent)
  | _, [] => .ok []
  | passed, e :: rest =>
    match svgStep verify failIfVerifyPresent passed e with
    | .error err => .error err
    | .ok (out, passed') =>
      match Svg.rewriteLoop verify failIfVerifyPresent passed' rest with
      | .error err => .error err
      | .ok tail => .ok (out ++ tail)

/-- The SVG baking algorithm, `Patcher::rewrite` of `src/patcher/svg.rs`:
the event loop started with `passed_init_elem = false` on the reader's
event stream.  An `Except.error` result models `rewrite` returning `Err`
before the output is finalized. -/
def Svg.rewrite (verify : String) (failIfVerifyPresent : Bool)
    (events : List XEvent) : Except RewriteError (List XEvent) :=
  Svg.rewriteLoop verify failIfVerifyPresent false events

/-! Serialize-then-parse model for the SVG output, needed to state
repeated baking: writing the produced events to a file and reading the
file back yields the same events except that the reader resolves element
prefixes against the in-scope namespace declarations (in particular the
freshly written `openbadges:assertion` elements, whose writer events carry
no resolved URI). -/

/-- First binding of a prefix in a namespace mapping. -/
def nsLookup (ns : List (String × String)) (p : String) : Option String :=
  match ns.find? (fun m => m.1 = p) with
  | some m => some m.2
  | none => none

/-- Prefix resolution as `xml-rs` performs it: an empty URI binding means
"no namespace". -/
def resolveUri (ns : List (String × String)) (p : String) : Option String :=
  match nsLookup ns p with
  | some u => if u = "" then none else some u
  | none => none

/-- Re-reading one event: a start element whose name the writer left
unresolved (`nsUri = none`) gets its prefix (or the default prefix `""`)
resolved against the in-scope mapping — the element's own attached mapping
when it has one (reader events carry the full in-scope mapping), else the
enclosing scope — and its attached mapping replaced by that scope.  All
other events re-read as themselves. -/
def mapEvent (scope : List (String × String)) : XEvent → XEvent
  | .startElement n attrs ns =>
    let sc := if ns.isEmpty then scope else ns
    let n' :=
      if n.nsUri.isSome then n
      else { n with nsUri := resolveUri sc (n.pfx.getD "") }
    .startElement n' attrs sc
  | e => e

/-- Scope-stack evolution while re-reading: a start element pushes its
effective mapping, an end element pops. -/
def stackAfter (stack : List (List (String × String))) :
    XEvent → List (List (String × String))
  | .startElement _ _ ns =>
    (if ns.isEmpty then stack.headD [] else ns) :: stack
  | .endElement _ => stack.tail
  | _ => stack

/-- Re-reading an event sequence under a scope stack. -/
def reparseAux (stack : List (List (String × String))) :
    List XEvent → List XEvent
  | [] => []
  | e :: rest => mapEvent (stack.headD []) e :: reparseAux (stackAfter stack e) rest

/-- Serialize-then-parse: the event stream a reader yields for the file
the writer produced from `es`. -/
def reparse (es : List XEvent) : List XEvent :=
  reparseAux [] es

/-! Derived predicates and concrete fixtures used by the statements. -/

/-- Local name of a start element, `none` for any other event. -/
def startLocalName : XEvent → Option String
  | .startElement n _ _ => some n.localName
  | _ => none

/-- Attribute list of a start element (empty for any other event). -/
def attrsOf : XEvent → List (String × String)
  | .startElement _ attrs _ => attrs
  | _ => []

/-- Namespace mapping attached to a start element (empty for any other
event). -/
def nsOf : XEvent → List (String × String)
  | .startElement _ _ ns => ns
  | _ => []

/-- A start element with local name `assertion` whose (last) `verify`
attribute is exactly `P` — the shape of every marker event the patcher
emits right after a root `<svg>` start element. -/
def assertLikeP (P : String) (e : XEvent) : Bool :=
  decide (startLocalName e = some "assertion") &&
    decide (verifyAttrVal e = some P)

/-- Every event that passes the `add_namespace` root test is immediately
followed by a marker event carrying `P` (trailing such an event is
allowed). -/
def followOk (P : String) : List XEvent → Bool
  | [] => true
  | [_] => true
  | e :: f :: rest =>
    (!isSvgCondStart e || assertLikeP P f) && followOk P (f :: rest)

/-- What `xml-rs` guarantees about a root start element it reports: its
resolved namespace is the SVG namespace, or it is an unprefixed element in
no namespace whose attached in-scope mapping binds no default
namespace. -/
def rootConsistent (n : QName) (ns : List (String × String)) : Prop :=
  n.nsUri = some svgNS ∨
    (n.nsUri = none ∧ n.pfx = none ∧ resolveUri ns "" = none)

/-- Fixture: a plain root `<svg>` start element in the SVG namespace. -/
def svgRootEv : XEvent :=
  .startElement ⟨none, "svg", some svgNS⟩ [] [("", svgNS)]

/-- Fixture: the matching root end element. -/
def svgRootEndEv : XEvent := .endElement ⟨none, "svg", some svgNS⟩

/-- Fixture: a `<rect>` start element. -/
def rectEv : XEvent :=
  .startElement ⟨none, "rect", some svgNS⟩ [] [("", svgNS)]

/-- Fixture: the matching `</rect>` end element. -/
def rectEndEv : XEvent := .endElement ⟨none, "rect", some svgNS⟩

/-- Fixture: an existing `openbadges:assertion` start element carrying
`verify="A"` plus a second attribute `id="x"`. -/
def assertionEvA : XEvent :=
  .startElement ⟨some "openbadges", "assertion", some obNS⟩
    [("verify", "A"), ("id", "x")] [("", svgNS), ("openbadges", obNS)]

/-- Fixture: the matching assertion end element. -/
def assertionEndEv : XEvent :=
  .endElement ⟨some "openbadges", "assertion", some obNS⟩

/-- Fixture: a root `<svg>` element whose `openbadges` prefix is already
bound to a URI that is not the Open Badges namespace. -/
def svgRootOtherNsEv : XEvent :=
  .startElement ⟨none, "svg", some svgNS⟩ []
    [("", svgNS), ("openbadges", "http://other.org")]

/-- Fixture: an `<html>` root element (not an SVG root). -/
def htmlRootEv : XEvent := .startElement ⟨none, "html", none⟩ [] []

/-- Fixture: the matching `</html>` end element. -/
def htmlRootEndEv : XEvent := .endElement ⟨none, "html", none⟩

/-! Helper lemmas about the PNG algorithm. -/

/-- Inversion of one step of the iTXt pass. -/
theorem processItxt_cons_ok (v : String) (b : Bool) (c : TextChunk)
    (rest kept : List TextChunk) (flag : Bool)
    (h : processItxt v b (c :: rest) = .ok (kept, flag)) :
    (c.keyword = "openbadges" ∧ c.text = v ∧
      ∃ tail fl, processItxt v b rest = .ok (tail, fl) ∧
        kept = c :: tail ∧ flag = true) ∨
    (c.keyword = "openbadges" ∧ c.text ≠ v ∧ b = false ∧
      processItxt v b rest = .ok (kept, flag)) ∨
    (c.keyword ≠ "openbadges" ∧
      ∃ tail, processItxt v b rest = .ok (tail, flag) ∧ kept = c :: tail) := by
  by_cases hk : c.keyword = "openbadges"
  · by_cases ht : c.text = v
    · left
      refine ⟨hk, ht, ?_⟩
      rw [processItxt, if_pos hk, if_pos ht] at h
      cases hr : processItxt v b rest with
      | error e => rw [hr] at h; exact absurd h (by simp)
      | ok p =>
        obtain ⟨tail, fl⟩ := p
        rw [hr] at h
        simp only [Except.ok.injEq, Prod.mk.injEq] at h
        exact ⟨tail, fl, rfl, h.1.symm, h.2.symm⟩
    · right; left
      rw [processItxt, if_pos hk, if_neg ht] at h
      cases hb : b with
      | true => rw [hb] at h; exact absurd h (by simp)
      | false =>
        rw [hb] at h
        simp only [Bool.false_eq_true, if_false] at h
        exact ⟨hk, ht, rfl, h⟩
  · right; right
    rw [processItxt, if_neg hk] at h
    cases hr : processItxt v b rest with
    | error e => rw [hr] at h; exact absurd h (by simp)
    | ok p =>
      obtain ⟨tail, fl⟩ := p
      rw [hr] at h
      simp only [Except.ok.injEq, Prod.mk.injEq] at h
      obtain ⟨h1, h2⟩ := h
      subst h2
      exact ⟨hk, tail, rfl, h1.symm⟩

/-- The iTXt pass on success keeps the non-marker chunks exactly: same
content, same order. -/
theorem processItxt_ok_nonob (v : String) (b : Bool) :
    ∀ (l kept : List TextChunk) (flag : Bool),
      processItxt v b l = .ok (kept, flag) →
      kept.filter (fun c => !decide (c.keyword = "openbadges")) =
        l.filter (fun c => !decide (c.keyword = "openbadges")) := by
  intro l
  induction l with
  | nil =>
    intro kept flag h
    rw [processItxt] at h
    simp only [Except.ok.injEq, Prod.mk.injEq] at h
    rw [← h.1]
  | cons c rest ih =>
    intro kept flag h
    rcases processItxt_cons_ok v b c rest kept flag h with
      ⟨hk, _, tail, fl, hr, hkept, _⟩ | ⟨hk, _, _, hr⟩ | ⟨hk, tail, hr, hkept⟩
    · rw [hkept]
      simp [List.filter_cons, hk, ih tail fl hr]
    · rw [ih kept flag hr]
      simp [List.filter_cons, hk]
    · rw [hkept]
      simp [List.filter_cons, hk, ih tail flag hr]

/-- The iTXt pass on success keeps exactly those marker chunks whose text
already equals the proposal. -/
theorem processItxt_ok_ob (v : String) (b : Bool) :
    ∀ (l kept : List TextChunk) (flag : Bool),
      processItxt v b l = .ok (kept, flag) →
      kept.filter (fun c => decide (c.keyword = "openbadges")) =
        l.filter (fun c => decide (c.keyword = "openbadges" ∧ c.text = v)) := by
  intro l
  induction l with
  | nil =>
    intro kept flag h
    rw [processItxt] at h
    simp only [Except.ok.injEq, Prod.mk.injEq] at h
    rw [← h.1]
    rfl
  | cons c rest ih =>
    intro kept flag h
    rcases processItxt_cons_ok v b c rest kept flag h with
      ⟨hk, ht, tail, fl, hr, hkept, _⟩ | ⟨hk, ht, _, hr⟩ | ⟨hk, tail, hr, hkept⟩
    · rw [hkept]
      simp [List.filter_cons, hk, ht, ih tail fl hr]
    · rw [ih kept flag hr]
      have hc : ¬(c.keyword = "openbadges" ∧ c.text = v) := fun hc => ht hc.2
      simp [List.filter_cons, hc]
    · rw [hkept]
      have hc : ¬(c.keyword = "openbadges" ∧ c.text = v) := fun hc => hk hc.1
      simp [List.filter_cons, hk, hc, ih tail flag hr]

/-- The `verify_already_as_proposed` flag on success reports exactly
whether some marker chunk already carried the proposal. -/
theorem processItxt_ok_flag (v : String) (b : Bool) :
    ∀ (l kept : List TextChunk) (flag : Bool),
      processItxt v b l = .ok (kept, flag) →
      flag = l.any (fun c => decide (c.keyword = "openbadges" ∧ c.text = v)) := by
  intro l
  induction l with
  | nil =>
    intro kept flag h
    rw [processItxt] at h
    simp only [Except.ok.injEq, Prod.mk.injEq] at h
    rw [← h.2]
    rfl
  | cons c rest ih =>
    intro kept flag h
    rcases processItxt_cons_ok v b c rest kept flag h with
      ⟨hk, ht, tail, fl, hr, _, hflag⟩ | ⟨hk, ht, _, hr⟩ | ⟨hk, tail, hr, _⟩
    · rw [hflag]
      simp [hk, ht]
    · rw [ih kept flag hr]
      have hc : ¬(c.keyword = "openbadges" ∧ c.text = v) := fun hc => ht hc.2
      simp [hc]
    · rw [ih tail flag hr]
      have hc : ¬(c.keyword = "openbadges" ∧ c.text = v) := fun hc => hk hc.1
      simp [hc]

/-- Every chunk the iTXt pass keeps comes from the source list. -/
theorem processItxt_ok_mem (v : String) (b : Bool) :
    ∀ (l kept : List TextChunk) (flag : Bool),
      processItxt v b l = .ok (kept, flag) →
      ∀ c ∈ kept, c ∈ l := by
  intro l
  induction l with
  | nil =>
    intro kept flag h
    rw [processItxt] at h
    simp only [Except.ok.injEq, Prod.mk.injEq] at h
    rw [← h.1]
    intro c hc
    exact absurd hc (by simp)
  | cons c rest ih =>
    intro kept flag h d hd
    rcases processItxt_cons_ok v b c rest kept flag h with
      ⟨_, _, tail, fl, hr, hkept, _⟩ | ⟨_, _, _, hr⟩ | ⟨_, tail, hr, hkept⟩
    · rw [hkept] at hd
      rcases List.mem_cons.mp hd with hd | hd
      · simp [hd]
      · exact List.mem_cons_of_mem c (ih tail fl hr d hd)
    · exact List.mem_cons_of_mem c (ih kept flag hr d hd)
    · rw [hkept] at hd
      rcases List.mem_cons.mp hd with hd | hd
      · simp [hd]
      · exact List.mem_cons_of_mem c (ih tail flag hr d hd)

/-- When every marker chunk already carries the proposed text, the iTXt
pass keeps the whole list and reports whether any marker was seen. -/
theorem processItxt_all_eq (v : String) (b : Bool) :
    ∀ l : List TextChunk,
      (∀ c ∈ l, c.keyword = "openbadges" → c.text = v) →
      processItxt v b l =
        .ok (l, l.any (fun c => decide (c.keyword = "openbadges"))) := by
  intro l
  induction l with
  | nil => intro _; rfl
  | cons c rest ih =>
    intro h
    by_cases hk : c.keyword = "openbadges"
    · have ht : c.text = v := h c (by simp) hk
      rw [processItxt, if_pos hk, if_pos ht,
        ih (fun d hd => h d (List.mem_cons_of_mem c hd))]
      simp [hk]
    · rw [processItxt, if_neg hk,
        ih (fun d hd => h d (List.mem_cons_of_mem c hd))]
      simp [hk]

/-- The iTXt pass aborts with `VerifyAlreadySet` carrying the existing
text as soon as a marker with a different text is met in strict mode. -/
theorem processItxt_conflict (A B : String) :
    ∀ l : List TextChunk,
      (∀ c ∈ l, c.keyword = "openbadges" → c.text = A) →
      (∃ c ∈ l, c.keyword = "openbadges") →
      A ≠ B →
      processItxt B true l = .error (.verifyAlreadySet A B) := by
  intro l
  induction l with
  | nil => intro _ hex _; exact absurd hex (by simp)
  | cons c rest ih =>
    intro hall hex hne
    by_cases hk : c.keyword = "openbadges"
    · have ht : c.text = A := hall c (by simp) hk
      have htb : ¬ c.text = B := by rw [ht]; exact hne
      rw [processItxt, if_pos hk, if_neg htb, if_pos rfl, ht]
    · rcases hex with ⟨d, hd, hdk⟩
      rcases List.mem_cons.mp hd with hd | hd
      · exact absurd (hd ▸ hdk) hk
      · rw [processItxt, if_neg hk,
          ih (fun e he => hall e (List.mem_cons_of_mem c he)) ⟨d, hd, hdk⟩ hne]

/-- Copying an all-good frame stream copies every frame. -/
theorem copyFrames_all (l : List (List Nat)) :
    copyFrames (l.map some) = l := by
  induction l with
  | nil => rfl
  | cons f rest ih => simp [copyFrames, ih]

/-- Copying stops silently at the first failed frame. -/
theorem copyFrames_until_error (l : List (List Nat))
    (rest : List (Option (List Nat))) :
    copyFrames (l.map some ++ none :: rest) = l := by
  induction l with
  | nil => rfl
  | cons f t ih => simp [copyFrames, ih]

/-- Inversion of a successful PNG rewrite: the output decomposes into the
re-encoded tEXt chunks, zTXt chunks, kept iTXt chunks and the optional
fresh marker, with the copied frames. -/
theorem png_rewrite_ok_inv (chunks : List TextChunk)
    (frames : List (Option (List Nat))) (v : String) (b : Bool)
    (oc : List TextChunk) (ofr : List (List Nat))
    (h : Png.rewrite chunks frames v b = .ok (oc, ofr)) :
    ∃ kept flag, processItxt v b (utf8Text chunks) = .ok (kept, flag) ∧
      oc = uncompressedLatin1Text chunks ++ compressedLatin1Text chunks ++
        kept ++
        (if flag then ([] : List TextChunk)
         else [⟨ChunkKind.iTXt, "openbadges", v⟩]) ∧
      ofr = copyFrames frames := by
  rw [Png.rewrite] at h
  cases hp : processItxt v b (utf8Text chunks) with
  | error e => rw [hp] at h; exact absurd h (by simp)
  | ok p =>
    obtain ⟨kept, flag⟩ := p
    rw [hp] at h
    simp only [Except.ok.injEq, Prod.mk.injEq] at h
    exact ⟨kept, flag, rfl, h.1.symm, h.2.symm⟩

/-- Chunks selected for one kind all carry that kind. -/
theorem mem_kind_filter {l : List TextChunk} {k : ChunkKind} {c : TextChunk}
    (h : c ∈ l.filter (fun c => decide (c.kind = k))) : c.kind = k := by
  have := (List.mem_filter.mp h).2
  simpa using this

/-- Filtering a kind-homogeneous list for a different kind gives nothing. -/
theorem kind_filter_ne {k k' : ChunkKind} (hne : k ≠ k') (l : List TextChunk) :
    (l.filter (fun c => decide (c.kind = k))).filter
      (fun c => decide (c.kind = k')) = [] := by
  rw [List.filter_eq_nil_iff]
  intro c hc
  have := mem_kind_filter hc
  simp [this, hne]

/-- Filtering a kind-homogeneous list for the same kind is the identity. -/
theorem kind_filter_self (k : ChunkKind) (l : List TextChunk) :
    (l.filter (fun c => decide (c.kind = k))).filter
      (fun c => decide (c.kind = k)) = l.filter (fun c => decide (c.kind = k)) := by
  rw [List.filter_eq_self]
  intro c hc
  simp [mem_kind_filter hc]

/-- A list all of whose members are iTXt chunks filters to itself under
`utf8Text`. -/
theorem utf8Text_of_all_itxt (l : List TextChunk)
    (h : ∀ c ∈ l, c.kind = ChunkKind.iTXt) : utf8Text l = l := by
  rw [utf8Text, List.filter_eq_self]
  intro c hc
  simp [h c hc]

/-- A list all of whose members are iTXt chunks contributes nothing to the
tEXt or zTXt vectors. -/
theorem kind_filter_of_all_itxt (l : List TextChunk) (k : ChunkKind)
    (hk : k ≠ ChunkKind.iTXt)
    (h : ∀ c ∈ l, c.kind = ChunkKind.iTXt) :
    l.filter (fun c => decide (c.kind = k)) = [] := by
  rw [List.filter_eq_nil_iff]
  intro c hc
  have hck := h c hc
  simp only [hck, decide_eq_true_eq]
  intro he
  exact hk he.symm

/-- PNG conflict detection: on a source whose `openbadges` iTXt markers
all carry text `A`, with at least one present, proposing `B ≠ A` in strict
mode aborts with `VerifyAlreadySet{present: A, proposed: B}`; no output
pair is produced. -/
theorem png_rewrite_conflict (chunks : List TextChunk)
    (frames : List (Option (List Nat))) (A B : String)
    (hall : ∀ c ∈ chunks,
      c.kind = ChunkKind.iTXt → c.keyword = "openbadges" → c.text = A)
    (hex : ∃ c ∈ chunks, c.kind = ChunkKind.iTXt ∧ c.keyword = "openbadges")
    (hne : A ≠ B) :
    Png.rewrite chunks frames B true = .error (.verifyAlreadySet A B) := by
  have h1 : ∀ c ∈ utf8Text chunks, c.keyword = "openbadges" → c.text = A :=
    fun c hc => hall c (List.mem_filter.mp hc).1 (mem_kind_filter hc)
  have h2 : ∃ c ∈ utf8Text chunks, c.keyword = "openbadges" := by
    obtain ⟨c, hc, hk, hkw⟩ := hex
    exact ⟨c, List.mem_filter.mpr ⟨hc, by simp [hk]⟩, hkw⟩
  rw [Png.rewrite, processItxt_conflict A B (utf8Text chunks) h1 h2 hne]

/-- Decomposition of a successful PNG rewrite's per-kind chunk vectors:
the tEXt and zTXt vectors are preserved verbatim, the iTXt vector is the
kept chunks followed by the optional fresh marker, and the whole output is
the concatenation of its three kind groups. -/
theorem png_rewrite_ok_utf8 (chunks : List TextChunk)
    (frames : List (Option (List Nat))) (v : String) (b : Bool)
    (oc : List TextChunk) (ofr : List (List Nat))
    (h : Png.rewrite chunks frames v b = .ok (oc, ofr)) :
    uncompressedLatin1Text oc = uncompressedLatin1Text chunks ∧
    compressedLatin1Text oc = compressedLatin1Text chunks ∧
    (∃ kept flag, processItxt v b (utf8Text chunks) = .ok (kept, flag) ∧
      utf8Text oc = kept ++
        (if flag then ([] : List TextChunk)
         else [⟨ChunkKind.iTXt, "openbadges", v⟩]) ∧
      oc = uncompressedLatin1Text chunks ++ compressedLatin1Text chunks ++
        utf8Text oc ∧
      ofr = copyFrames frames) := by
  obtain ⟨kept, flag, hpi, hoc, hofr⟩ := png_rewrite_ok_inv _ _ _ _ _ _ h
  have hkeptK : ∀ c ∈ kept, c.kind = ChunkKind.iTXt := fun c hc =>
    mem_kind_filter (processItxt_ok_mem v b _ kept flag hpi c hc)
  have hmkK : ∀ c ∈ (if flag then ([] : List TextChunk)
      else [⟨ChunkKind.iTXt, "openbadges", v⟩]), c.kind = ChunkKind.iTXt := by
    intro c hc
    cases flag with
    | true => exact absurd hc (by simp)
    | false =>
      simp only [Bool.false_eq_true, if_false] at hc
      rw [List.mem_singleton.mp hc]
  have hoc' : oc =
      chunks.filter (fun c => decide (c.kind = ChunkKind.tEXt)) ++
      chunks.filter (fun c => decide (c.kind = ChunkKind.zTXt)) ++ kept ++
      (if flag then ([] : List TextChunk)
       else [⟨ChunkKind.iTXt, "openbadges", v⟩]) := hoc
  have hu : utf8Text oc = kept ++
      (if flag then ([] : List TextChunk)
       else [⟨ChunkKind.iTXt, "openbadges", v⟩]) := by
    show oc.filter (fun c => decide (c.kind = ChunkKind.iTXt)) = _
    rw [hoc', List.filter_append, List.filter_append, List.filter_append,
      kind_filter_ne (by decide : ChunkKind.tEXt ≠ ChunkKind.iTXt),
      kind_filter_ne (by decide : ChunkKind.zTXt ≠ ChunkKind.iTXt),
      List.filter_eq_self.mpr (fun c hc => by simp [hkeptK c hc]),
      List.filter_eq_self.mpr (fun c hc => by simp [hmkK c hc])]
    rfl
  have ht : uncompressedLatin1Text oc = uncompressedLatin1Text chunks := by
    show oc.filter (fun c => decide (c.kind = ChunkKind.tEXt)) =
      chunks.filter (fun c => decide (c.kind = ChunkKind.tEXt))
    rw [hoc', List.filter_append, List.filter_append, List.filter_append,
      kind_filter_self,
      kind_filter_ne (by decide : ChunkKind.zTXt ≠ ChunkKind.tEXt),
      kind_filter_of_all_itxt kept ChunkKind.tEXt (by decide) hkeptK,
      kind_filter_of_all_itxt _ ChunkKind.tEXt (by decide) hmkK]
    simp
  have hz : compressedLatin1Text oc = compressedLatin1Text chunks := by
    show oc.filter (fun c => decide (c.kind = ChunkKind.zTXt)) =
      chunks.filter (fun c => decide (c.kind = ChunkKind.zTXt))
    rw [hoc', List.filter_append, List.filter_append, List.filter_append,
      kind_filter_self,
      kind_filter_ne (by decide : ChunkKind.tEXt ≠ ChunkKind.zTXt),
      kind_filter_of_all_itxt kept ChunkKind.zTXt (by decide) hkeptK,
      kind_filter_of_all_itxt _ ChunkKind.zTXt (by decide) hmkK]
    simp
  refine ⟨ht, hz, kept, flag, hpi, hu, ?_, hofr⟩
  rw [hu, hoc]
  simp [List.append_assoc]

/-- Forward computation of a PNG rewrite from the result of its iTXt
pass. -/
theorem png_rewrite_eq (chunks : List TextChunk)
    (frames : List (Option (List Nat))) (v : String) (b : Bool)
    (kept : List TextChunk) (flag : Bool)
    (hpi : processItxt v b (utf8Text chunks) = .ok (kept, flag)) :
    Png.rewrite chunks frames v b =
      .ok (uncompressedLatin1Text chunks ++ compressedLatin1Text chunks ++
            kept ++
            (if flag then ([] : List TextChunk)
             else [⟨ChunkKind.iTXt, "openbadges", v⟩]),
          copyFrames frames) := by
  rw [Png.rewrite, hpi]

/-- PNG idempotence: a second bake of a successful bake's output with the
same payload in strict mode succeeds and reproduces the output verbatim;
moreover every `openbadges` iTXt chunk of the output carries exactly the
payload, and at least one is present. -/
theorem png_rewrite_idem (chunks : List TextChunk)
    (frames : List (Option (List Nat))) (v : String) (b : Bool)
    (oc : List TextChunk) (ofr : List (List Nat))
    (h : Png.rewrite chunks frames v b = .ok (oc, ofr)) :
    Png.rewrite oc (ofr.map some) v true = .ok (oc, ofr) ∧
    (∀ c ∈ oc, c.kind = ChunkKind.iTXt → c.keyword = "openbadges" →
      c.text = v) ∧
    (∃ c ∈ oc, c.kind = ChunkKind.iTXt ∧ c.keyword = "openbadges" ∧
      c.text = v) := by
  obtain ⟨ht, hz, kept, flag, hpi, hu, hsplit, hofr⟩ :=
    png_rewrite_ok_utf8 _ _ _ _ _ _ h
  have hobKept : ∀ c ∈ kept, c.keyword = "openbadges" → c.text = v := by
    intro c hc hkw
    have h1 : c ∈ kept.filter (fun c => decide (c.keyword = "openbadges")) :=
      List.mem_filter.mpr ⟨hc, by simp [hkw]⟩
    rw [processItxt_ok_ob v b _ kept flag hpi] at h1
    have := (List.mem_filter.mp h1).2
    simp at this
    exact this.2
  have hobU : ∀ c ∈ utf8Text oc, c.keyword = "openbadges" → c.text = v := by
    intro c hc hkw
    rw [hu] at hc
    rcases List.mem_append.mp hc with hc | hc
    · exact hobKept c hc hkw
    · cases flag with
      | true => exact absurd hc (by simp)
      | false =>
        simp only [Bool.false_eq_true, if_false] at hc
        rw [List.mem_singleton.mp hc]
  have hexU : ∃ c ∈ utf8Text oc, c.keyword = "openbadges" ∧ c.text = v := by
    cases hflag : flag with
    | false =>
      refine ⟨⟨ChunkKind.iTXt, "openbadges", v⟩, ?_, rfl, rfl⟩
      rw [hu, hflag]
      simp
    | true =>
      have hany := processItxt_ok_flag v b _ kept flag hpi
      rw [hflag] at hany
      obtain ⟨c, hc, hq⟩ := List.any_eq_true.mp hany.symm
      simp only [decide_eq_true_eq] at hq
      have h1 : c ∈ (utf8Text chunks).filter
          (fun c => decide (c.keyword = "openbadges" ∧ c.text = v)) :=
        List.mem_filter.mpr ⟨hc, by simp [hq.1, hq.2]⟩
      rw [← processItxt_ok_ob v b _ kept flag hpi] at h1
      have h2 : c ∈ kept := (List.mem_filter.mp h1).1
      refine ⟨c, ?_, hq.1, hq.2⟩
      rw [hu]
      exact List.mem_append.mpr (Or.inl h2)
  have hall2 : ∀ c ∈ utf8Text oc, c.keyword = "openbadges" → c.text = v :=
    hobU
  obtain ⟨cw, hcw, hcwk, hcwt⟩ := hexU
  have hany2 : (utf8Text oc).any (fun c => decide (c.keyword = "openbadges"))
      = true :=
    List.any_eq_true.mpr ⟨cw, hcw, by simp [hcwk]⟩
  refine ⟨?_, ?_, ?_⟩
  · rw [png_rewrite_eq oc (ofr.map some) v true (utf8Text oc) _
      (processItxt_all_eq v true (utf8Text oc) hall2)]
    rw [hany2, if_pos rfl, List.append_nil, ht, hz, ← hsplit,
      copyFrames_all]
  · intro c hc hk hkw
    exact hobU c (List.mem_filter.mpr ⟨hc, by simp [hk]⟩) hkw
  · refine ⟨cw, (List.mem_filter.mp hcw).1, mem_kind_filter hcw, hcwk, hcwt⟩

/-- Marker multiplicity after a successful PNG rewrite: the number of
`openbadges` iTXt chunks in the output is the number of source markers
that already carried the payload, or one when there was none. -/
theorem png_rewrite_marker_count (chunks : List TextChunk)
    (frames : List (Option (List Nat))) (v : String) (b : Bool)
    (oc : List TextChunk) (ofr : List (List Nat))
    (h : Png.rewrite chunks frames v b = .ok (oc, ofr)) :
    oc.countP
      (fun c => decide (c.kind = ChunkKind.iTXt ∧ c.keyword = "openbadges")) =
    max 1 (chunks.countP (fun c =>
      decide (c.kind = ChunkKind.iTXt ∧ c.keyword = "openbadges" ∧
        c.text = v))) := by
  obtain ⟨ht, hz, kept, flag, hpi, hu, hsplit, hofr⟩ :=
    png_rewrite_ok_utf8 _ _ _ _ _ _ h
  have hkeptK : ∀ c ∈ kept, c.kind = ChunkKind.iTXt := fun c hc =>
    mem_kind_filter (processItxt_ok_mem v b _ kept flag hpi c hc)
  have hS : chunks.countP (fun c =>
      decide (c.kind = ChunkKind.iTXt ∧ c.keyword = "openbadges" ∧
        c.text = v)) =
      (utf8Text chunks).countP
        (fun c => decide (c.keyword = "openbadges" ∧ c.text = v)) := by
    rw [utf8Text, List.countP_filter]
    refine List.countP_congr ?_
    intro c _
    simp only [decide_eq_true_eq, Bool.and_eq_true]
    constructor
    · intro hc; exact ⟨hc.2, by simp [hc.1]⟩
    · intro hc; exact ⟨by simpa using hc.2, hc.1⟩
  have h0t : (uncompressedLatin1Text chunks).countP (fun c =>
      decide (c.kind = ChunkKind.iTXt ∧ c.keyword = "openbadges")) = 0 := by
    rw [List.countP_eq_zero]
    intro c hc
    have := mem_kind_filter hc
    simp [this]
  have h0z : (compressedLatin1Text chunks).countP (fun c =>
      decide (c.kind = ChunkKind.iTXt ∧ c.keyword = "openbadges")) = 0 := by
    rw [List.countP_eq_zero]
    intro c hc
    have := mem_kind_filter hc
    simp [this]
  have hkc : kept.countP (fun c =>
      decide (c.kind = ChunkKind.iTXt ∧ c.keyword = "openbadges")) =
      (utf8Text chunks).countP
        (fun c => decide (c.keyword = "openbadges" ∧ c.text = v)) := by
    rw [List.countP_congr (q := fun c => decide (c.keyword = "openbadges"))
      (fun c hc => by simp [hkeptK c hc]),
      List.countP_eq_length_filter, List.countP_eq_length_filter,
      processItxt_ok_ob v b _ kept flag hpi]
  rw [hsplit, hu, List.countP_append, List.countP_append, List.countP_append,
    h0t, h0z, hkc, hS]
  cases hflag : flag with
  | true =>
    have hany := processItxt_ok_flag v b _ kept flag hpi
    rw [hflag] at hany
    have hpos : 0 < (utf8Text chunks).countP
        (fun c => decide (c.keyword = "openbadges" ∧ c.text = v)) :=
      List.countP_pos_iff.mpr (List.any_eq_true.mp hany.symm)
    rw [Nat.max_eq_right hpos]
    simp
  | false =>
    have hany := processItxt_ok_flag v b _ kept flag hpi
    rw [hflag] at hany
    have hzero : (utf8Text chunks).countP
        (fun c => decide (c.keyword = "openbadges" ∧ c.text = v)) = 0 := by
      rw [List.countP_eq_zero]
      exact List.any_eq_false.mp hany.symm
    rw [hzero]
    simp [List.countP_cons]

/-- Per-kind preservation after a successful PNG rewrite: the tEXt and
zTXt vectors are reproduced verbatim, and the non-marker iTXt chunks are
reproduced verbatim in their original relative order. -/
theorem png_rewrite_preserves (chunks : List TextChunk)
    (frames : List (Option (List Nat))) (v : String) (b : Bool)
    (oc : List TextChunk) (ofr : List (List Nat))
    (h : Png.rewrite chunks frames v b = .ok (oc, ofr)) :
    uncompressedLatin1Text oc = uncompressedLatin1Text chunks ∧
    compressedLatin1Text oc = compressedLatin1Text chunks ∧
    (utf8Text oc).filter (fun c => !decide (c.keyword = "openbadges")) =
      (utf8Text chunks).filter (fun c => !decide (c.keyword = "openbadges")) := by
  obtain ⟨ht, hz, kept, flag, hpi, hu, hsplit, hofr⟩ :=
    png_rewrite_ok_utf8 _ _ _ _ _ _ h
  refine ⟨ht, hz, ?_⟩
  rw [hu, List.filter_append, processItxt_ok_nonob v b _ kept flag hpi]
  cases flag <;> simp

/-- A frame-decoding failure does not surface: with the same chunk
inventory, replacing the frame stream by one failing after `fs1` still
returns `Ok`, with the frames silently truncated at the failure. -/
theorem png_rewrite_frame_error_ok (chunks : List TextChunk)
    (frames : List (Option (List Nat))) (v : String) (b : Bool)
    (oc : List TextChunk) (ofr : List (List Nat))
    (h : Png.rewrite chunks frames v b = .ok (oc, ofr))
    (fs1 : List (List Nat)) (rest : List (Option (List Nat))) :
    Png.rewrite chunks (fs1.map some ++ none :: rest) v b = .ok (oc, fs1) := by
  obtain ⟨kept, flag, hpi, hoc, hofr⟩ := png_rewrite_ok_inv _ _ _ _ _ _ h
  rw [png_rewrite_eq _ _ _ _ kept flag hpi, copyFrames_until_error, ← hoc]

/-! Helper lemmas about the SVG algorithm. -/

/-- The writer conversion is the identity whenever it is defined. -/
theorem writerEvent_some {e x : XEvent} (h : writerEvent e = some x) :
    x = e := by
  cases e <;> simp [writerEvent] at h <;> simp [h]

/-- With the flag down, one loop iteration is exactly `add_namespace`. -/
theorem svgStep_false (v : String) (b : Bool) (e : XEvent) :
    svgStep v b false e = .ok (addNamespace (writerEvent e)) := rfl

/-- The flag raised by `add_namespace` is exactly the root test. -/
theorem addNamespace_writer_snd (e : XEvent) :
    (addNamespace (writerEvent e)).2 = isSvgCondStart e := by
  cases e with
  | startElement n a ns =>
    show (addNamespace (some (.startElement n a ns))).2 = _
    rw [addNamespace]
    by_cases h : isSvgStartName n
    · rw [if_pos h]; simp [isSvgCondStart, h]
    · rw [if_neg h]
      simp only [isSvgCondStart]
      exact (Bool.not_eq_true _).mp (fun hc => h hc) |>.symm
  | startDocument => rfl
  | endElement n => rfl
  | characters s => rfl
  | comment s => rfl
  | endDocument => rfl

/-- On an event failing the root test, `add_namespace` forwards the
writer conversion unchanged with the flag down. -/
theorem addNamespace_not_svg (e : XEvent) (h : isSvgCondStart e = false) :
    addNamespace (writerEvent e) = ((writerEvent e).toList, false) := by
  cases e with
  | startElement n a ns =>
    show addNamespace (some (.startElement n a ns)) = _
    rw [addNamespace]
    have hn : ¬ isSvgStartName n = true := by
      simpa [isSvgCondStart] using h
    rw [if_neg hn]
    rfl
  | startDocument => rfl
  | endElement n => rfl
  | characters s => rfl
  | comment s => rfl
  | endDocument => rfl

/-- On a start element passing the root test, `add_namespace` injects the
`openbadges` mapping when absent and raises the flag. -/
theorem addNamespace_svg (n : QName) (a ns : List (String × String))
    (h : isSvgStartName n = true) :
    addNamespace (some (.startElement n a ns)) =
      ([.startElement n a (withObNs ns)], true) := by
  rw [addNamespace, if_pos h]

/-- An `openbadges:assertion` start element never passes the root test. -/
theorem assertLocal_not_svg (e : XEvent)
    (h : startLocalName e = some "assertion") : isSvgCondStart e = false := by
  cases e with
  | startElement n a ns =>
    simp only [startLocalName, Option.some.injEq] at h
    simp only [isSvgCondStart, isSvgStartName, h]
    simp [show strToLower "assertion" ≠ "svg" from by decide]
  | startDocument => rfl
  | endElement n => rfl
  | characters s => rfl
  | comment s => rfl
  | endDocument => rfl

/-- The `is_ob_assert` test forces the local name `assertion`. -/
theorem isObAssert_local (e : XEvent) (h : isObAssert e = true) :
    startLocalName e = some "assertion" := by
  cases e with
  | startElement n a ns =>
    simp only [isObAssert, Bool.and_eq_true, decide_eq_true_eq] at h
    simp [startLocalName, h.2]
  | startDocument => exact absurd h (by simp [isObAssert])
  | endElement n => exact absurd h (by simp [isObAssert])
  | characters s => exact absurd h (by simp [isObAssert])
  | comment s => exact absurd h (by simp [isObAssert])
  | endDocument => exact absurd h (by simp [isObAssert])

/-- The freshly written marker start element is assertion-shaped with the
proposed payload. -/
theorem assertLike_newAssertStart (P : String) :
    assertLikeP P (newAssertStart P) = true := by
  simp [assertLikeP, newAssertStart, obAssertName, startLocalName,
    verifyAttrVal]

/-- The freshly written marker start element fails the root test. -/
theorem newAssertStart_not_svg (P : String) :
    isSvgCondStart (newAssertStart P) = false := by
  simp only [newAssertStart, obAssertName, isSvgCondStart, isSvgStartName]
  simp [show strToLower "assertion" ≠ "svg" from by decide]

/-- An assertion-shaped event fails the root test. -/
theorem assertLike_not_svg (P : String) (e : XEvent)
    (h : assertLikeP P e = true) : isSvgCondStart e = false := by
  simp only [assertLikeP, Bool.and_eq_true, decide_eq_true_eq] at h
  exact assertLocal_not_svg e h.1

/-- An `is_ob_assert` event is a start element, so its writer conversion
is defined. -/
theorem isObAssert_writer (e : XEvent) (h : isObAssert e = true) :
    writerEvent e = some e := by
  cases e with
  | startElement n a ns => rfl
  | startDocument => exact absurd h (by simp [isObAssert])
  | endElement n => exact absurd h (by simp [isObAssert])
  | characters s => exact absurd h (by simp [isObAssert])
  | comment s => exact absurd h (by simp [isObAssert])
  | endDocument => exact absurd h (by simp [isObAssert])

/-- Extending a marker-follow-correct list with a head whose possible
root-test success is matched by the tail's head. -/
theorem followOk_cons_all (P : String) (e : XEvent) (tail : List XEvent)
    (hf : followOk P tail = true)
    (hh : isSvgCondStart e = true →
      tail = [] ∨ ∃ f t, tail = f :: t ∧ assertLikeP P f = true) :
    followOk P (e :: tail) = true := by
  cases tail with
  | nil => rfl
  | cons f t =>
    rw [followOk, Bool.and_eq_true]
    refine ⟨?_, hf⟩
    by_cases hs : isSvgCondStart e = true
    · rcases hh hs with hnil | ⟨f', t', heq, ha⟩
      · exact absurd hnil (by simp)
      · injection heq with h1 h2
        subst h1
        simp [ha]
    · rw [Bool.not_eq_true] at hs
      simp [hs]

/-- The tail of a marker-follow-correct list is marker-follow-correct. -/
theorem followOk_tail (P : String) (e : XEvent) (rest : List XEvent)
    (h : followOk P (e :: rest) = true) : followOk P rest = true := by
  cases rest with
  | nil => rfl
  | cons f t =>
    rw [followOk, Bool.and_eq_true] at h
    exact h.2

/-- In a marker-follow-correct list, the event after a root-test success
is marker-shaped. -/
theorem followOk_head (P : String) (e f : XEvent) (rest : List XEvent)
    (h : followOk P (e :: f :: rest) = true)
    (hs : isSvgCondStart e = true) : assertLikeP P f = true := by
  rw [followOk, Bool.and_eq_true] at h
  have h1 := h.1
  rw [hs] at h1
  simpa using h1

/-- The events written by `add_namespace`, prepended to a
marker-follow-correct tail whose head covers a possible root-test
success, stay marker-follow-correct. -/
theorem followOk_addNs (P : String) (e : XEvent) (tail : List XEvent)
    (hf : followOk P tail = true)
    (hh : isSvgCondStart e = true →
      tail = [] ∨ ∃ f t, tail = f :: t ∧ assertLikeP P f = true) :
    followOk P ((addNamespace (writerEvent e)).1 ++ tail) = true := by
  by_cases hs : isSvgCondStart e = true
  · cases e with
    | startElement n a ns =>
      have hn : isSvgStartName n = true := by
        simpa [isSvgCondStart] using hs
      show followOk P
        ((addNamespace (some (.startElement n a ns))).1 ++ tail) = true
      rw [addNamespace_svg n a ns hn]
      exact followOk_cons_all P _ tail hf (fun _ => hh hs)
    | startDocument => exact absurd hs (by simp [isSvgCondStart])
    | endElement n => exact absurd hs (by simp [isSvgCondStart])
    | characters s => exact absurd hs (by simp [isSvgCondStart])
    | comment s => exact absurd hs (by simp [isSvgCondStart])
    | endDocument => exact absurd hs (by simp [isSvgCondStart])
  · rw [Bool.not_eq_true] at hs
    rw [addNamespace_not_svg e hs]
    cases hw : writerEvent e with
    | none => simpa using hf
    | some x =>
      rw [writerEvent_some hw]
      show followOk P (e :: tail) = true
      exact followOk_cons_all P e tail hf
        (fun hc => absurd hc (by rw [hs]; simp))

/-- With the flag up, one loop iteration is the examination block. -/
theorem svgStep_true (v : String) (b : Bool) (e : XEvent) :
    svgStep v b true e = svgStepTrue v b e := rfl

/-- Inversion of one loop iteration with the flag up. -/
theorem svgStep_true_ok (P : String) (b : Bool) (e : XEvent)
    (w : List XEvent) (p' : Bool)
    (h : svgStep P b true e = .ok (w, p')) :
    (∃ val, isObAssert e = true ∧ verifyAttrVal e = some val ∧ val = P ∧
      (w, p') = addNamespace (writerEvent e)) ∨
    (∃ val, isObAssert e = true ∧ verifyAttrVal e = some val ∧ val ≠ P ∧
      b = false ∧ w = [newAssertStart P] ∧ p' = false) ∨
    ((isObAssert e = false ∨ verifyAttrVal e = none) ∧
      w = assertPair P ++ (addNamespace (writerEvent e)).1 ∧
      p' = (addNamespace (writerEvent e)).2) := by
  rw [svgStep_true, svgStepTrue] at h
  split at h
  · rename_i hob
    split at h
    · rename_i val hval
      split at h
      · rename_i hveq
        simp only [Except.ok.injEq] at h
        exact Or.inl ⟨val, hob, hval, hveq, h.symm⟩
      · rename_i hveq
        split at h
        · exact absurd h (by simp)
        · rename_i hb
          have hrepl : addNamespace (some (newAssertStart P)) =
              ([newAssertStart P], false) := by
            show addNamespace
              (some (.startElement obAssertName [("verify", P)] [])) = _
            rw [addNamespace, if_neg]
            · rfl
            · intro hc
              have := newAssertStart_not_svg P
              rw [newAssertStart] at this
              simp [isSvgCondStart, hc] at this
          rw [hrepl] at h
          simp only [Except.ok.injEq, Prod.mk.injEq] at h
          exact Or.inr (Or.inl ⟨val, hob, hval, hveq, by
            rw [Bool.not_eq_true] at hb
            exact hb, h.1.symm, h.2.symm⟩)
    · rename_i hval
      simp only [Except.ok.injEq, Prod.mk.injEq] at h
      exact Or.inr (Or.inr ⟨Or.inr hval, h.1.symm, h.2.symm⟩)
  · rename_i hob
    rw [Bool.not_eq_true] at hob
    simp only [Except.ok.injEq, Prod.mk.injEq] at h
    exact Or.inr (Or.inr ⟨Or.inl hob, h.1.symm, h.2.symm⟩)

/-- Invariant established by one full run of the rewrite loop: in the
written output, every root-test success is immediately followed by a
marker event carrying the proposed payload, and when the flag is up on
entry the first written event is such a marker. -/
theorem rewriteLoop_followOk (P : String) (b : Bool) :
    ∀ (es : List XEvent) (passed : Bool) (out : List XEvent),
      Svg.rewriteLoop P b passed es = .ok out →
      followOk P out = true ∧
      (passed = true →
        out = [] ∨ ∃ f t, out = f :: t ∧ assertLikeP P f = true) := by
  intro es
  induction es with
  | nil =>
    intro passed out h
    rw [Svg.rewriteLoop] at h
    simp only [Except.ok.injEq] at h
    subst h
    exact ⟨rfl, fun _ => Or.inl rfl⟩
  | cons e rest ih =>
    intro passed out h
    rw [Svg.rewriteLoop] at h
    cases hstep : svgStep P b passed e with
    | error err => rw [hstep] at h; exact absurd h (by simp)
    | ok wp =>
      obtain ⟨w, p'⟩ := wp
      rw [hstep] at h
      dsimp only at h
      cases hrec : Svg.rewriteLoop P b p' rest with
      | error err => rw [hrec] at h; exact absurd h (by simp)
      | ok tail =>
        rw [hrec] at h
        dsimp only at h
        simp only [Except.ok.injEq] at h
        subst h
        obtain ⟨ihF, ihH⟩ := ih p' tail hrec
        cases passed with
        | false =>
          rw [svgStep_false] at hstep
          simp only [Except.ok.injEq] at hstep
          have hw : w = (addNamespace (writerEvent e)).1 := by rw [hstep]
          have hp : p' = (addNamespace (writerEvent e)).2 := by rw [hstep]
          refine ⟨?_, fun hcon => absurd hcon (by simp)⟩
          rw [hw]
          exact followOk_addNs P e tail ihF
            (fun hs => ihH (by rw [hp, addNamespace_writer_snd, hs]))
        | true =>
          rcases svgStep_true_ok P b e w p' hstep with
            ⟨val, hob, hval, hveq, hwp⟩ |
            ⟨val, hob, hval, hvne, hb, hw, hp⟩ |
            ⟨hcase, hw, hp⟩
          · -- existing marker with the proposed payload, forwarded
            have hwr : writerEvent e = some e := isObAssert_writer e hob
            have hns : isSvgCondStart e = false :=
              assertLocal_not_svg e (isObAssert_local e hob)
            rw [addNamespace_not_svg e hns, hwr] at hwp
            simp only [Prod.mk.injEq] at hwp
            have hw : w = (some e).toList := hwp.1
            have hp : p' = false := hwp.2
            have hlike : assertLikeP P e = true := by
              rw [assertLikeP, Bool.and_eq_true]
              constructor
              · simp [isObAssert_local e hob]
              · rw [hval, hveq]; simp
            refine ⟨?_, ?_⟩
            · rw [hw]
              show followOk P (e :: tail) = true
              exact followOk_cons_all P e tail ihF
                (fun hc => absurd hc (by rw [hns]; simp))
            · intro _
              rw [hw]
              exact Or.inr ⟨e, tail, rfl, hlike⟩
          · -- existing marker with a different payload, replaced
            subst hw
            refine ⟨?_, ?_⟩
            · show followOk P (newAssertStart P :: tail) = true
              exact followOk_cons_all P _ tail ihF
                (fun hc => absurd hc (by rw [newAssertStart_not_svg]; simp))
            · intro _
              exact Or.inr ⟨newAssertStart P, tail, rfl,
                assertLike_newAssertStart P⟩
          · -- no marker found, fresh pair written before the event
            subst hw
            have hinner : followOk P
                ((addNamespace (writerEvent e)).1 ++ tail) = true :=
              followOk_addNs P e tail ihF
                (fun hs => ihH (by rw [hp, addNamespace_writer_snd, hs]))
            refine ⟨?_, ?_⟩
            · show followOk P (newAssertStart P ::
                XEvent.endElement obAssertName ::
                ((addNamespace (writerEvent e)).1 ++ tail)) = true
              refine followOk_cons_all P _ _ ?_ ?_
              · refine followOk_cons_all P _ _ hinner ?_
                intro hc
                exact absurd hc (by simp [isSvgCondStart])
              · intro hc
                exact absurd hc (by rw [newAssertStart_not_svg]; simp)
            · intro _
              exact Or.inr ⟨newAssertStart P,
                XEvent.endElement obAssertName ::
                  ((addNamespace (writerEvent e)).1 ++ tail), rfl,
                assertLike_newAssertStart P⟩

/-- Events failing the root test stream through the loop with the flag
down: they are forwarded via the writer conversion, and the outcome is
entirely decided by the remaining events. -/
theorem rewriteLoop_passthrough (v : String) (b : Bool) :
    ∀ (pre ys : List XEvent),
      (∀ e ∈ pre, isSvgCondStart e = false) →
      Svg.rewriteLoop v b false (pre ++ ys) =
        (Svg.rewriteLoop v b false ys).map
          (fun t => pre.filterMap writerEvent ++ t) := by
  intro pre
  induction pre with
  | nil =>
    intro ys _
    cases hys : Svg.rewriteLoop v b false ys <;> simp [Except.map, hys]
  | cons e pre ih =>
    intro ys hpre
    have he : isSvgCondStart e = false := hpre e (by simp)
    have hrest : ∀ x ∈ pre, isSvgCondStart x = false :=
      fun x hx => hpre x (List.mem_cons_of_mem e hx)
    show Svg.rewriteLoop v b false (e :: (pre ++ ys)) = _
    rw [Svg.rewriteLoop, svgStep_false, addNamespace_not_svg e he]
    dsimp only
    have hsnd : ((writerEvent e).toList, false).2 = false := rfl
    rw [ih ys hrest]
    cases hys : Svg.rewriteLoop v b false ys with
    | error err => simp [Except.map]
    | ok t =>
      simp only [Except.map]
      cases hw : writerEvent e with
      | none => simp [List.filterMap_cons, hw]
      | some x => simp [List.filterMap_cons, hw]

/-- The first event written by a successful examination step is a marker
event carrying the proposed payload. -/
theorem svgStep_true_ok_head (P : String) (b : Bool) (e : XEvent)
    (w : List XEvent) (p' : Bool)
    (h : svgStep P b true e = .ok (w, p')) :
    ∃ m w2, w = m :: w2 ∧ assertLikeP P m = true := by
  rcases svgStep_true_ok P b e w p' h with
    ⟨val, hob, hval, hveq, hwp⟩ |
    ⟨val, hob, hval, hvne, hb, hw, hp⟩ |
    ⟨hcase, hw, hp⟩
  · have hwr : writerEvent e = some e := isObAssert_writer e hob
    have hns : isSvgCondStart e = false :=
      assertLocal_not_svg e (isObAssert_local e hob)
    rw [addNamespace_not_svg e hns, hwr] at hwp
    simp only [Prod.mk.injEq] at hwp
    refine ⟨e, [], by rw [hwp.1]; rfl, ?_⟩
    rw [assertLikeP, Bool.and_eq_true]
    constructor
    · simp [isObAssert_local e hob]
    · rw [hval, hveq]; simp
  · exact ⟨newAssertStart P, [], hw, assertLike_newAssertStart P⟩
  · exact ⟨newAssertStart P,
      XEvent.endElement obAssertName :: (addNamespace (writerEvent e)).1,
      hw, assertLike_newAssertStart P⟩

/-- Shape of a successful bake on a stream with a recognizable root: the
preamble is forwarded, the root element is emitted with the `openbadges`
mapping ensured, and the event right after it is a marker event carrying
the proposed payload. -/
theorem rewrite_shape (P : String) (b : Bool) (pre : List XEvent)
    (n : QName) (attrs ns : List (String × String)) (next : XEvent)
    (rest : List XEvent) (out : List XEvent)
    (hpre : ∀ e ∈ pre, isSvgCondStart e = false)
    (hn : isSvgStartName n = true)
    (h : Svg.rewrite P b
      (pre ++ XEvent.startElement n attrs ns :: next :: rest) = .ok out) :
    ∃ m tail, out = pre.filterMap writerEvent ++
      XEvent.startElement n attrs (withObNs ns) :: m :: tail ∧
      assertLikeP P m = true := by
  rw [Svg.rewrite, rewriteLoop_passthrough P b pre _ hpre] at h
  cases hroot : Svg.rewriteLoop P b false
      (XEvent.startElement n attrs ns :: next :: rest) with
  | error err =>
    rw [hroot] at h
    exact absurd h (by simp [Except.map])
  | ok t =>
    rw [hroot] at h
    simp only [Except.map, Except.ok.injEq] at h
    subst h
    have hstep : svgStep P b false (XEvent.startElement n attrs ns) =
        .ok ([XEvent.startElement n attrs (withObNs ns)], true) := by
      rw [svgStep_false]
      show Except.ok (addNamespace (some (XEvent.startElement n attrs ns))) = _
      rw [addNamespace_svg n attrs ns hn]
    rw [Svg.rewriteLoop, hstep] at hroot
    dsimp only at hroot
    cases hnext : Svg.rewriteLoop P b true (next :: rest) with
    | error err =>
      rw [hnext] at hroot
      exact absurd hroot (by simp)
    | ok t2 =>
      rw [hnext] at hroot
      simp only [Except.ok.injEq] at hroot
      subst hroot
      rw [Svg.rewriteLoop] at hnext
      cases hstep2 : svgStep P b true next with
      | error err =>
        rw [hstep2] at hnext
        exact absurd hnext (by simp)
      | ok wp =>
        obtain ⟨w, p'⟩ := wp
        rw [hstep2] at hnext
        dsimp only at hnext
        cases hrec : Svg.rewriteLoop P b p' rest with
        | error err =>
          rw [hrec] at hnext
          exact absurd hnext (by simp)
        | ok tail3 =>
          rw [hrec] at hnext
          simp only [Except.ok.injEq] at hnext
          subst hnext
          obtain ⟨m, w2, hw, hm⟩ := svgStep_true_ok_head P b next w p' hstep2
          refine ⟨m, w2 ++ tail3, ?_, hm⟩
          rw [hw]
          simp

/-- Second-pass success: on a stream in which every root-test success is
immediately followed by a marker event carrying `P` (and whose head is
such a marker when the flag is up), the loop in strict mode never hits the
conflict and succeeds. -/
theorem rewriteLoop_ok_of_followOk (P : String) :
    ∀ (es : List XEvent) (passed : Bool),
      followOk P es = true →
      (passed = true →
        es = [] ∨ ∃ f t, es = f :: t ∧ assertLikeP P f = true) →
      ∃ out, Svg.rewriteLoop P true passed es = .ok out := by
  intro es
  induction es with
  | nil => intro passed _ _; exact ⟨[], rfl⟩
  | cons e rest ih =>
    intro passed hf hh
    have hrest : followOk P rest = true := followOk_tail P e rest hf
    have hhrest : isSvgCondStart e = true →
        rest = [] ∨ ∃ f t, rest = f :: t ∧ assertLikeP P f = true := by
      intro hs
      cases rest with
      | nil => exact Or.inl rfl
      | cons f t => exact Or.inr ⟨f, t, rfl, followOk_head P e f t hf hs⟩
    have hstep : ∃ w, svgStep P true passed e = .ok (w, isSvgCondStart e) := by
      cases passed with
      | false =>
        refine ⟨(addNamespace (writerEvent e)).1, ?_⟩
        rw [svgStep_false, ← addNamespace_writer_snd e]
      | true =>
        rcases hh rfl with hnil | ⟨f, t, heq, hlike⟩
        · exact absurd hnil (by simp)
        · injection heq with h1 h2
          subst h1
          have hns : isSvgCondStart e = false := assertLike_not_svg P e hlike
          rw [assertLikeP, Bool.and_eq_true, decide_eq_true_eq,
            decide_eq_true_eq] at hlike
          by_cases hob : isObAssert e = true
          · refine ⟨(addNamespace (writerEvent e)).1, ?_⟩
            rw [svgStep_true, svgStepTrue, if_pos hob, hlike.2]
            dsimp only
            rw [if_pos rfl, ← addNamespace_writer_snd e]
          · refine ⟨assertPair P ++ (addNamespace (writerEvent e)).1, ?_⟩
            rw [svgStep_true, svgStepTrue, if_neg hob,
              ← addNamespace_writer_snd e]
    obtain ⟨w, hsw⟩ := hstep
    obtain ⟨tailOut, hrec⟩ := ih (isSvgCondStart e) hrest hhrest
    refine ⟨w ++ tailOut, ?_⟩
    rw [Svg.rewriteLoop, hsw]
    dsimp only
    rw [hrec]

/-- Unfolding one step of the re-reading pass. -/
theorem reparseAux_cons (st : List (List (String × String))) (e : XEvent)
    (rest : List XEvent) :
    reparseAux st (e :: rest) =
      mapEvent (st.headD []) e :: reparseAux (stackAfter st e) rest := rfl

/-- The re-reading pass distributes over concatenation. -/
theorem reparseAux_append :
    ∀ (xs ys : List XEvent) (st : List (List (String × String))),
      reparseAux st (xs ++ ys) =
        reparseAux st xs ++ reparseAux (xs.foldl stackAfter st) ys := by
  intro xs
  induction xs with
  | nil => intro ys st; rfl
  | cons e xs ih =>
    intro ys st
    show reparseAux st (e :: (xs ++ ys)) = _
    rw [reparseAux_cons, reparseAux_cons, ih]
    rfl

/-- Re-reading cannot make an event pass the root test that did not pass
it before. -/
theorem mapEvent_svgCond (sc : List (String × String)) (e : XEvent)
    (h : isSvgCondStart (mapEvent sc e) = true) : isSvgCondStart e = true := by
  cases e with
  | startElement n a ns =>
    rw [mapEvent] at h
    by_cases hsome : n.nsUri.isSome
    · rw [if_pos hsome] at h
      exact h
    · rw [if_neg hsome] at h
      simp only [isSvgCondStart, isSvgStartName, Bool.and_eq_true] at h ⊢
      refine ⟨h.1, ?_⟩
      have : n.nsUri = none := Option.not_isSome_iff_eq_none.mp hsome
      simp [this]
  | startDocument => exact h
  | endElement n => exact h
  | characters s => exact h
  | comment s => exact h
  | endDocument => exact h

/-- Re-reading preserves marker-shapedness (local name and attributes are
untouched). -/
theorem mapEvent_assertLike (P : String) (sc : List (String × String))
    (e : XEvent) : assertLikeP P (mapEvent sc e) = assertLikeP P e := by
  cases e with
  | startElement n a ns =>
    rw [mapEvent]
    by_cases hsome : n.nsUri.isSome
    · rw [if_pos hsome]
      simp [assertLikeP, startLocalName, verifyAttrVal]
    · rw [if_neg hsome]
      simp [assertLikeP, startLocalName, verifyAttrVal]
  | startDocument => rfl
  | endElement n => rfl
  | characters s => rfl
  | comment s => rfl
  | endDocument => rfl

/-- Re-reading preserves the marker-follow invariant. -/
theorem reparse_followOk (P : String) :
    ∀ (es : List XEvent) (st : List (List (String × String))),
      followOk P es = true → followOk P (reparseAux st es) = true := by
  intro es
  induction es with
  | nil => intro st _; rfl
  | cons e rest ih =>
    intro st hf
    rw [reparseAux_cons]
    cases rest with
    | nil => rfl
    | cons f t =>
      rw [reparseAux_cons]
      rw [followOk, Bool.and_eq_true]
      constructor
      · by_cases hs : isSvgCondStart (mapEvent (st.headD []) e) = true
        · have hse : isSvgCondStart e = true := mapEvent_svgCond _ e hs
          have hlike := followOk_head P e f t hf hse
          rw [hs, mapEvent_assertLike P _ f, hlike]
          rfl
        · rw [Bool.not_eq_true] at hs
          rw [hs]
          rfl
      · have := ih (stackAfter st e) (followOk_tail P e (f :: t) hf)
        rwa [reparseAux_cons] at this

/-- Re-reading preserves failure of the root test across a whole
segment. -/
theorem reparse_not_svgCond :
    ∀ (es : List XEvent) (st : List (List (String × String))),
      (∀ e ∈ es, isSvgCondStart e = false) →
      ∀ x ∈ reparseAux st es, isSvgCondStart x = false := by
  intro es
  induction es with
  | nil => intro st _ x hx; exact absurd hx (by simp [reparseAux])
  | cons e rest ih =>
    intro st hall x hx
    rw [reparseAux_cons] at hx
    rcases List.mem_cons.mp hx with hx | hx
    · subst hx
      by_cases hs : isSvgCondStart (mapEvent (st.headD []) e) = true
      · have := mapEvent_svgCond _ e hs
        rw [hall e (by simp)] at this
        exact absurd this (by simp)
      · rwa [Bool.not_eq_true] at hs
    · exact ih (stackAfter st e)
        (fun d hd => hall d (List.mem_cons_of_mem e hd)) x hx

/-- Forwarded preamble events keep failing the root test. -/
theorem filterMap_writer_not_svg (pre : List XEvent)
    (hpre : ∀ e ∈ pre, isSvgCondStart e = false) :
    ∀ x ∈ pre.filterMap writerEvent, isSvgCondStart x = false := by
  intro x hx
  obtain ⟨e, he, hw⟩ := List.mem_filterMap.mp hx
  rw [writerEvent_some hw]
  exact hpre e he

/-- The injected namespace mapping is never empty. -/
theorem withObNs_ne_nil (ns : List (String × String)) : withObNs ns ≠ [] := by
  rw [withObNs]
  by_cases hc : nsContainsOb ns = true
  · rw [if_pos hc]
    intro hnil
    rw [hnil] at hc
    exact absurd hc (by simp [nsContainsOb])
  · rw [Bool.not_eq_true] at hc
    rw [hc]
    simp

/-- Default-namespace lookup is unaffected by appending the `openbadges`
binding. -/
theorem nsLookup_ob (ns : List (String × String)) :
    nsLookup (ns ++ [("openbadges", obNS)]) "" = nsLookup ns "" := by
  induction ns with
  | nil => rfl
  | cons m rest ih =>
    rw [List.cons_append, nsLookup, nsLookup, List.find?_cons,
      List.find?_cons]
    by_cases hm : m.1 = ""
    · simp [hm]
    · simp only [hm, decide_False, Bool.false_eq_true, if_false]
      show nsLookup (rest ++ [("openbadges", obNS)]) "" = nsLookup rest ""
      exact ih

/-- Default-namespace resolution is unaffected by the injection. -/
theorem resolveUri_withObNs (ns : List (String × String))
    (h : resolveUri ns "" = none) : resolveUri (withObNs ns) "" = none := by
  rw [withObNs]
  by_cases hc : nsContainsOb ns = true
  · rw [if_pos hc]; exact h
  · rw [Bool.not_eq_true] at hc
    rw [hc]
    simp only [Bool.false_eq_true, if_false]
    rw [resolveUri, nsLookup_ob]
    rw [resolveUri] at h
    exact h

/-- Re-reading the augmented root element keeps it a start element with
the same attributes, passing the root test. -/
theorem mapEvent_root (n : QName) (attrs ns sc : List (String × String))
    (hn : isSvgStartName n = true) (hroot : rootConsistent n ns) :
    ∃ n2 ns2, mapEvent sc (.startElement n attrs (withObNs ns)) =
      .startElement n2 attrs ns2 ∧ isSvgStartName n2 = true := by
  rw [mapEvent]
  have hne : (withObNs ns).isEmpty = false := by
    cases hwo : withObNs ns with
    | nil => exact absurd hwo (withObNs_ne_nil ns)
    | cons x l => rfl
  rw [hne]
  simp only [Bool.false_eq_true, if_false]
  rcases hroot with hsvg | ⟨hnone, hpfx, hres⟩
  · have hsome : n.nsUri.isSome = true := by rw [hsvg]; rfl
    rw [if_pos hsome]
    exact ⟨n, withObNs ns, rfl, hn⟩
  · have hsome : ¬ n.nsUri.isSome = true := by rw [hnone]; simp
    rw [if_neg hsome]
    refine ⟨_, withObNs ns, rfl, ?_⟩
    rw [hpfx]
    simp only [Option.getD_none]
    rw [resolveUri_withObNs ns hres]
    simp only [isSvgStartName] at hn ⊢
    rw [Bool.and_eq_true] at hn
    simp [hn.1]

/-- The bake entry point is the loop started with the flag down. -/
theorem svg_rewrite_def (v : String) (b : Bool) (es : List XEvent) :
    Svg.rewrite v b es = Svg.rewriteLoop v b false es := rfl

/-- SVG idempotence: a successful bake, re-read from the written file and
baked again with the same payload in strict mode, succeeds, and the event
following the root element of the second output is again a marker
carrying exactly the payload. -/
theorem svg_rewrite_idem (P : String) (b : Bool) (pre : List XEvent)
    (n : QName) (attrs ns : List (String × String)) (next : XEvent)
    (rest : List XEvent) (out1 : List XEvent)
    (hpre : ∀ e ∈ pre, isSvgCondStart e = false)
    (hn : isSvgStartName n = true)
    (hroot : rootConsistent n ns)
    (h : Svg.rewrite P b
      (pre ++ XEvent.startElement n attrs ns :: next :: rest) = .ok out1) :
    ∃ out2, Svg.rewrite P true (reparse out1) = .ok out2 ∧
      ∃ pre2 n2 ns2 m tail,
        out2 = pre2 ++ XEvent.startElement n2 attrs ns2 :: m :: tail ∧
        isSvgStartName n2 = true ∧ assertLikeP P m = true ∧
        (∀ e ∈ pre2, isSvgCondStart e = false) := by
  have hF : followOk P out1 = true := by
    rw [svg_rewrite_def] at h
    exact (rewriteLoop_followOk P b _ false out1 h).1
  obtain ⟨m1, tail1, hout1, hm1⟩ :=
    rewrite_shape P b pre n attrs ns next rest out1 hpre hn h
  -- decompose the re-read stream
  obtain ⟨n2, ns2, hrootmap, hn2⟩ :=
    mapEvent_root n attrs ns
      (((pre.filterMap writerEvent).foldl stackAfter []).headD []) hn hroot
  have hdec : reparse out1 =
      reparseAux [] (pre.filterMap writerEvent) ++
      XEvent.startElement n2 attrs ns2 ::
      mapEvent
        ((stackAfter ((pre.filterMap writerEvent).foldl stackAfter [])
          (XEvent.startElement n attrs (withObNs ns))).headD []) m1 ::
      reparseAux
        (stackAfter
          (stackAfter ((pre.filterMap writerEvent).foldl stackAfter [])
            (XEvent.startElement n attrs (withObNs ns)))
          m1) tail1 := by
    rw [hout1, reparse, reparseAux_append, reparseAux_cons, reparseAux_cons,
      hrootmap]
  have hpre2 : ∀ e ∈ reparseAux [] (pre.filterMap writerEvent),
      isSvgCondStart e = false :=
    reparse_not_svgCond _ [] (filterMap_writer_not_svg pre hpre)
  have hm2 : assertLikeP P
      (mapEvent
        ((stackAfter ((pre.filterMap writerEvent).foldl stackAfter [])
          (XEvent.startElement n attrs (withObNs ns))).headD []) m1) = true := by
    rw [mapEvent_assertLike]
    exact hm1
  have hF2 : followOk P (reparse out1) = true :=
    reparse_followOk P out1 [] hF
  obtain ⟨out2, hout2⟩ :=
    rewriteLoop_ok_of_followOk P (reparse out1) false hF2
      (fun hc => absurd hc (by simp))
  refine ⟨out2, by rw [svg_rewrite_def]; exact hout2, ?_⟩
  have h2 : Svg.rewrite P true (reparse out1) = .ok out2 := by
    rw [svg_rewrite_def]; exact hout2
  rw [hdec] at h2
  obtain ⟨m, tail, hshape, hm⟩ :=
    rewrite_shape P true _ n2 attrs ns2 _ _ out2 hpre2 hn2 h2
  exact ⟨_, n2, withObNs ns2, m, tail, hshape, hn2, hm,
    filterMap_writer_not_svg _ hpre2⟩

/-- A failing examination step aborts the loop. -/
theorem rewriteLoop_cons_error (v : String) (b : Bool) (passed : Bool)
    (e : XEvent) (rest : List XEvent) (err : RewriteError)
    (h : svgStep v b passed e = .error err) :
    Svg.rewriteLoop v b passed (e :: rest) = .error err := by
  rw [Svg.rewriteLoop, h]

/-- A successful step followed by a successful remainder concatenates. -/
theorem rewriteLoop_cons_ok (v : String) (b : Bool) (passed : Bool)
    (e : XEvent) (rest : List XEvent) (w : List XEvent) (p' : Bool)
    (tail : List XEvent)
    (h : svgStep v b passed e = .ok (w, p'))
    (h2 : Svg.rewriteLoop v b p' rest = .ok tail) :
    Svg.rewriteLoop v b passed (e :: rest) = .ok (w ++ tail) := by
  rw [Svg.rewriteLoop, h]
  dsimp only
  rw [h2]

/-- A successful step followed by a failing remainder aborts. -/
theorem rewriteLoop_cons_ok_error (v : String) (b : Bool) (passed : Bool)
    (e : XEvent) (rest : List XEvent) (w : List XEvent) (p' : Bool)
    (err : RewriteError)
    (h : svgStep v b passed e = .ok (w, p'))
    (h2 : Svg.rewriteLoop v b p' rest = .error err) :
    Svg.rewriteLoop v b passed (e :: rest) = .error err := by
  rw [Svg.rewriteLoop, h]
  dsimp only
  rw [h2]

/-- With the flag down, a start element passing the root test is emitted
with the `openbadges` mapping ensured, raising the flag. -/
theorem svgStep_false_svg (v : String) (b : Bool) (n : QName)
    (attrs ns : List (String × String)) (hn : isSvgStartName n = true) :
    svgStep v b false (.startElement n attrs ns) =
      .ok ([.startElement n attrs (withObNs ns)], true) := by
  rw [svgStep_false]
  show Except.ok (addNamespace (some (.startElement n attrs ns))) = _
  rw [addNamespace_svg n attrs ns hn]

/-- The replacement marker element passes through `add_namespace`
unchanged with the flag down. -/
theorem addNamespace_newAssert (P : String) :
    addNamespace (some (newAssertStart P)) = ([newAssertStart P], false) := by
  show addNamespace (some (.startElement obAssertName [("verify", P)] [])) = _
  rw [addNamespace, if_neg]
  · rfl
  · intro hc
    have := newAssertStart_not_svg P
    rw [newAssertStart] at this
    simp [isSvgCondStart, hc] at this

/-- Examining an existing marker with a different payload in strict mode
raises the conflict error carrying both payloads. -/
theorem svgStep_true_conflict (B : String) (e : XEvent) (A : String)
    (hob : isObAssert e = true) (hval : verifyAttrVal e = some A)
    (hne : A ≠ B) :
    svgStep B true true e = .error (.verifyAlreadySet A B) := by
  rw [svgStep_true, svgStepTrue, if_pos hob, hval]
  dsimp only
  rw [if_neg hne, if_pos rfl]

/-- Examining an existing marker with a different payload in permissive
mode replaces it by a fresh marker element carrying only the proposed
payload. -/
theorem svgStep_true_overwrite (P : String) (e : XEvent) (A : String)
    (hob : isObAssert e = true) (hval : verifyAttrVal e = some A)
    (hne : A ≠ P) :
    svgStep P false true e = .ok ([newAssertStart P], false) := by
  rw [svgStep_true, svgStepTrue, if_pos hob, hval]
  dsimp only
  rw [if_neg hne, if_neg (by simp : ¬ (false = true)), addNamespace_newAssert]

/-- A stream with no root-test success passes through the loop unchanged
(modulo the writer conversion). -/
theorem rewriteLoop_stream (v : String) (b : Bool) (rest : List XEvent)
    (hrest : ∀ e ∈ rest, isSvgCondStart e = false) :
    Svg.rewriteLoop v b false rest = .ok (rest.filterMap writerEvent) := by
  have := rewriteLoop_passthrough v b rest [] hrest
  rw [List.append_nil] at this
  rw [this]
  simp [Svg.rewriteLoop, Except.map]

/-- SVG conflict detection: with a recognizable root whose first child is
an existing marker carrying `A`, proposing `B ≠ A` in strict mode aborts
with `VerifyAlreadySet{present: A, proposed: B}`. -/
theorem svg_rewrite_conflict (A B : String) (pre : List XEvent)
    (n : QName) (attrs ns : List (String × String))
    (na : QName) (attrsA nsA : List (String × String)) (rest : List XEvent)
    (hpre : ∀ e ∈ pre, isSvgCondStart e = false)
    (hn : isSvgStartName n = true)
    (hob : isObAssert (.startElement na attrsA nsA) = true)
    (hval : verifyAttrVal (.startElement na attrsA nsA) = some A)
    (hne : A ≠ B) :
    Svg.rewrite B true (pre ++ XEvent.startElement n attrs ns ::
      XEvent.startElement na attrsA nsA :: rest) =
      .error (.verifyAlreadySet A B) := by
  rw [svg_rewrite_def, rewriteLoop_passthrough B true pre _ hpre]
  rw [rewriteLoop_cons_ok_error B true false _ _ _ _ _
    (svgStep_false_svg B true n attrs ns hn)
    (rewriteLoop_cons_error B true true _ _ _
      (svgStep_true_conflict B _ A hob hval hne))]
  rfl

/-- SVG overwrite: with a recognizable root whose first child is an
existing marker carrying `A ≠ P`, permissive mode emits a fresh marker
element carrying only the `verify` attribute with value `P` in place of
the existing start element, and streams the remainder with the flag
down. -/
theorem svg_rewrite_overwrite (P A : String) (pre : List XEvent)
    (n : QName) (attrs ns : List (String × String))
    (na : QName) (attrsA nsA : List (String × String)) (rest : List XEvent)
    (hpre : ∀ e ∈ pre, isSvgCondStart e = false)
    (hn : isSvgStartName n = true)
    (hob : isObAssert (.startElement na attrsA nsA) = true)
    (hval : verifyAttrVal (.startElement na attrsA nsA) = some A)
    (hne : A ≠ P) :
    Svg.rewrite P false (pre ++ XEvent.startElement n attrs ns ::
      XEvent.startElement na attrsA nsA :: rest) =
      (Svg.rewriteLoop P false false rest).map
        (fun t => pre.filterMap writerEvent ++
          XEvent.startElement n attrs (withObNs ns) ::
          newAssertStart P :: t) := by
  rw [svg_rewrite_def, rewriteLoop_passthrough P false pre _ hpre]
  cases hrest : Svg.rewriteLoop P false false rest with
  | error err =>
    rw [rewriteLoop_cons_ok_error P false false _ _ _ _ _
      (svgStep_false_svg P false n attrs ns hn)
      (rewriteLoop_cons_ok_error P false true _ _ _ _ _
        (svgStep_true_overwrite P _ A hob hval hne) hrest)]
    rfl
  | ok t =>
    rw [rewriteLoop_cons_ok P false false _ _ _ _ _
      (svgStep_false_svg P false n attrs ns hn)
      (rewriteLoop_cons_ok P false true _ _ _ _ _
        (svgStep_true_overwrite P _ A hob hval hne) hrest)]
    rfl

/-- After the injection step the `openbadges` prefix is always declared. -/
theorem withObNs_contains (ns : List (String × String)) :
    nsContainsOb (withObNs ns) = true := by
  rw [withObNs]
  by_cases hc : nsContainsOb ns = true
  · rw [if_pos hc]; exact hc
  · rw [Bool.not_eq_true] at hc
    rw [hc]
    simp only [Bool.false_eq_true, if_false]
    rw [nsContainsOb, List.any_append]
    simp [nsContainsOb]

/-- A declared prefix leaves the mapping untouched. -/
theorem withObNs_of_contains (ns : List (String × String))
    (h : nsContainsOb ns = true) : withObNs ns = ns := by
  rw [withObNs, if_pos h]

/-- An absent prefix gets the Open Badges binding appended. -/
theorem withObNs_of_not_contains (ns : List (String × String))
    (h : nsContainsOb ns = false) : withObNs ns = ns ++ [("openbadges", obNS)] := by
  rw [withObNs, h]
  simp

/-- When the source mapping declares the prefix at most once, the emitted
mapping declares it exactly once. -/
theorem withObNs_count (ns : List (String × String))
    (h : ns.countP (fun m => decide (m.1 = "openbadges")) ≤ 1) :
    (withObNs ns).countP (fun m => decide (m.1 = "openbadges")) = 1 := by
  by_cases hc : nsContainsOb ns = true
  · rw [withObNs_of_contains ns hc]
    have hpos : 0 < ns.countP (fun m => decide (m.1 = "openbadges")) := by
      rw [List.countP_pos_iff]
      obtain ⟨m, hm, hp⟩ := List.any_eq_true.mp hc
      exact ⟨m, hm, hp⟩
    omega
  · rw [Bool.not_eq_true] at hc
    rw [withObNs_of_not_contains ns hc, List.countP_append]
    have hzero : ns.countP (fun m => decide (m.1 = "openbadges")) = 0 := by
      rw [List.countP_eq_zero]
      exact List.any_eq_false.mp hc
    rw [hzero]
    simp [List.countP_cons]

/-- After the root's follower has been handled with the flag reset, a
remainder without root-test successes streams through unchanged. -/
theorem svg_rewrite_stream_after (P : String) (b : Bool) (pre : List XEvent)
    (n : QName) (attrs ns : List (String × String)) (next : XEvent)
    (rest : List XEvent) (out : List XEvent)
    (hpre : ∀ e ∈ pre, isSvgCondStart e = false)
    (hn : isSvgStartName n = true)
    (hnext : isSvgCondStart next = false)
    (hrest : ∀ e ∈ rest, isSvgCondStart e = false)
    (h : Svg.rewrite P b
      (pre ++ XEvent.startElement n attrs ns :: next :: rest) = .ok out) :
    ∃ w, svgStep P b true next = .ok (w, false) ∧
      out = pre.filterMap writerEvent ++
        XEvent.startElement n attrs (withObNs ns) ::
        (w ++ rest.filterMap writerEvent) := by
  cases hstep2 : svgStep P b true next with
  | error err =>
    rw [svg_rewrite_def, rewriteLoop_passthrough P b pre _ hpre,
      rewriteLoop_cons_ok_error P b false _ _ _ _ _
        (svgStep_false_svg P b n attrs ns hn)
        (rewriteLoop_cons_error P b true _ _ _ hstep2)] at h
    exact absurd h (by simp [Except.map])
  | ok wp =>
    obtain ⟨w, p'⟩ := wp
    have hp : p' = false := by
      rcases svgStep_true_ok P b next w p' hstep2 with
        ⟨val, hob, hval, hveq, hwp⟩ | ⟨val, hob, hval, hvne, hb, hw, hp⟩ |
        ⟨hcase, hw, hp⟩
      · have hsnd : p' = (addNamespace (writerEvent next)).2 := by rw [← hwp]
        rw [hsnd, addNamespace_writer_snd, hnext]
      · exact hp
      · rw [hp, addNamespace_writer_snd, hnext]
    subst hp
    rw [svg_rewrite_def, rewriteLoop_passthrough P b pre _ hpre,
      rewriteLoop_cons_ok P b false _ _ _ _ _
        (svgStep_false_svg P b n attrs ns hn)
        (rewriteLoop_cons_ok P b true _ _ _ _ _ hstep2
          (rewriteLoop_stream P b rest hrest))] at h
    simp only [Except.map, Except.ok.injEq] at h
    exact ⟨w, rfl, h.symm⟩

/-! Claim theorems. -/

/-- C1: baking an image (PNG or SVG) that already carries a badge marker
with payload `A`, proposing `B ≠ A` with `fail_if_verify_present = true`,
returns `VerifyAlreadySet{present: A, proposed: B}` and produces no
finalized output (the rewrite evaluates to an error, not an output). -/
theorem claim_C1
    (chunks : List TextChunk) (frames : List (Option (List Nat)))
    (A B : String)
    (hall : ∀ c ∈ chunks,
      c.kind = ChunkKind.iTXt → c.keyword = "openbadges" → c.text = A)
    (hex : ∃ c ∈ chunks, c.kind = ChunkKind.iTXt ∧ c.keyword = "openbadges")
    (pre : List XEvent) (n : QName) (attrs ns : List (String × String))
    (na : QName) (attrsA nsA : List (String × String)) (rest : List XEvent)
    (hpre : ∀ e ∈ pre, isSvgCondStart e = false)
    (hn : isSvgStartName n = true)
    (hob : isObAssert (.startElement na attrsA nsA) = true)
    (hval : verifyAttrVal (.startElement na attrsA nsA) = some A)
    (hne : A ≠ B) :
    Png.rewrite chunks frames B true = .error (.verifyAlreadySet A B) ∧
    Svg.rewrite B true (pre ++ XEvent.startElement n attrs ns ::
      XEvent.startElement na attrsA nsA :: rest) =
      .error (.verifyAlreadySet A B) :=
  ⟨png_rewrite_conflict chunks frames A B hall hex hne,
   svg_rewrite_conflict A B pre n attrs ns na attrsA nsA rest hpre hn hob
     hval hne⟩

/-- Witness for C1: a concrete marked PNG inventory and a concrete marked
SVG stream, payload `"A"`, proposal `"B"`, strict mode. -/
theorem claim_C1_witness :
    Png.rewrite [⟨ChunkKind.iTXt, "openbadges", "A"⟩] [] "B" true =
      .error (.verifyAlreadySet "A" "B") ∧
    Svg.rewrite "B" true ([XEvent.startDocument] ++
      XEvent.startElement ⟨none, "svg", some svgNS⟩ [] [("", svgNS)] ::
      XEvent.startElement ⟨some "openbadges", "assertion", some obNS⟩
        [("verify", "A"), ("id", "x")] [("", svgNS), ("openbadges", obNS)] ::
      [assertionEndEv, svgRootEndEv]) = .error (.verifyAlreadySet "A" "B") :=
  claim_C1 [⟨ChunkKind.iTXt, "openbadges", "A"⟩] [] "A" "B"
    (by decide) (by decide) [XEvent.startDocument]
    ⟨none, "svg", some svgNS⟩ [] [("", svgNS)]
    ⟨some "openbadges", "assertion", some obNS⟩
    [("verify", "A"), ("id", "x")] [("", svgNS), ("openbadges", obNS)]
    [assertionEndEv, svgRootEndEv]
    (by decide) (by decide) (by decide) (by decide) (by decide)

/-- C2: idempotence — a successful bake (PNG or SVG) re-baked with the
same payload in strict mode succeeds with no conflict; the PNG output is
reproduced verbatim and every marker chunk carries exactly the payload,
and in the SVG output the event right after the root element is again a
marker carrying exactly the payload. -/
theorem claim_C2
    (chunks : List TextChunk) (frames : List (Option (List Nat)))
    (P : String) (b1 : Bool) (oc : List TextChunk) (ofr : List (List Nat))
    (hpng : Png.rewrite chunks frames P b1 = .ok (oc, ofr))
    (b2 : Bool) (pre : List XEvent) (n : QName)
    (attrs ns : List (String × String)) (next : XEvent)
    (rest : List XEvent) (out1 : List XEvent)
    (hpre : ∀ e ∈ pre, isSvgCondStart e = false)
    (hn : isSvgStartName n = true)
    (hroot : rootConsistent n ns)
    (hsvg : Svg.rewrite P b2
      (pre ++ XEvent.startElement n attrs ns :: next :: rest) = .ok out1) :
    (Png.rewrite oc (ofr.map some) P true = .ok (oc, ofr) ∧
      (∀ c ∈ oc, c.kind = ChunkKind.iTXt → c.keyword = "openbadges" →
        c.text = P) ∧
      (∃ c ∈ oc, c.kind = ChunkKind.iTXt ∧ c.keyword = "openbadges" ∧
        c.text = P)) ∧
    (∃ out2, Svg.rewrite P true (reparse out1) = .ok out2 ∧
      ∃ pre2 n2 ns2 m tail,
        out2 = pre2 ++ XEvent.startElement n2 attrs ns2 :: m :: tail ∧
        isSvgStartName n2 = true ∧ assertLikeP P m = true ∧
        (∀ e ∈ pre2, isSvgCondStart e = false)) :=
  ⟨png_rewrite_idem chunks frames P b1 oc ofr hpng,
   svg_rewrite_idem P b2 pre n attrs ns next rest out1 hpre hn hroot hsvg⟩

/-- Witness for C2: concrete first bakes of an unmarked PNG and an
unmarked SVG, then the theorem's second-bake conclusions at those
outputs. -/
theorem claim_C2_witness :
    (Png.rewrite [⟨ChunkKind.iTXt, "openbadges", "P"⟩] [] "P" true =
        .ok ([⟨ChunkKind.iTXt, "openbadges", "P"⟩], []) ∧
      (∀ c ∈ [TextChunk.mk ChunkKind.iTXt "openbadges" "P"],
        c.kind = ChunkKind.iTXt → c.keyword = "openbadges" →
        c.text = "P") ∧
      (∃ c ∈ [TextChunk.mk ChunkKind.iTXt "openbadges" "P"],
        c.kind = ChunkKind.iTXt ∧ c.keyword = "openbadges" ∧
        c.text = "P")) ∧
    (∃ out2, Svg.rewrite "P" true (reparse
        [XEvent.startElement ⟨none, "svg", some svgNS⟩ []
          [("", svgNS), ("openbadges", obNS)],
         newAssertStart "P", XEvent.endElement obAssertName,
         svgRootEndEv]) = .ok out2 ∧
      ∃ pre2 n2 ns2 m tail,
        out2 = pre2 ++ XEvent.startElement n2 [] ns2 :: m :: tail ∧
        isSvgStartName n2 = true ∧ assertLikeP "P" m = true ∧
        (∀ e ∈ pre2, isSvgCondStart e = false)) :=
  claim_C2 [] [] "P" false [⟨ChunkKind.iTXt, "openbadges", "P"⟩] [] rfl
    false [] ⟨none, "svg", some svgNS⟩ [] [("", svgNS)] svgRootEndEv []
    [XEvent.startElement ⟨none, "svg", some svgNS⟩ []
      [("", svgNS), ("openbadges", obNS)],
     newAssertStart "P", XEvent.endElement obAssertName, svgRootEndEv]
    (by decide) (by decide) (Or.inl rfl) rfl

/-- Counterexample to C3 as stated: a PNG already carrying two duplicate
markers with the proposed text re-emits both, so the output contains two
badge markers, not exactly one. -/
theorem claim_C3_counterexample :
    Png.rewrite [⟨ChunkKind.iTXt, "openbadges", "P"⟩,
        ⟨ChunkKind.iTXt, "openbadges", "P"⟩] [] "P" true =
      .ok ([⟨ChunkKind.iTXt, "openbadges", "P"⟩,
        ⟨ChunkKind.iTXt, "openbadges", "P"⟩], []) ∧
    ¬ ([⟨ChunkKind.iTXt, "openbadges", "P"⟩,
        ⟨ChunkKind.iTXt, "openbadges", "P"⟩] : List TextChunk).countP
        (fun c => decide (c.kind = ChunkKind.iTXt ∧
          c.keyword = "openbadges")) = 1 :=
  ⟨rfl, by decide⟩

/-- C3 (amended): on success every PNG marker chunk carries exactly the
proposed payload and their number is the number of source markers already
equal to it, or one when there was none (so exactly one unless duplicates
already carried the payload); in the SVG output the event right after the
root element is a marker carrying exactly the payload (a pre-existing
assertion lacking `verify` survives as a later sibling). -/
theorem claim_C3
    (chunks : List TextChunk) (frames : List (Option (List Nat)))
    (P : String) (b1 : Bool) (oc : List TextChunk) (ofr : List (List Nat))
    (hpng : Png.rewrite chunks frames P b1 = .ok (oc, ofr))
    (b2 : Bool) (pre : List XEvent) (n : QName)
    (attrs ns : List (String × String)) (next : XEvent)
    (rest : List XEvent) (out : List XEvent)
    (hpre : ∀ e ∈ pre, isSvgCondStart e = false)
    (hn : isSvgStartName n = true)
    (hsvg : Svg.rewrite P b2
      (pre ++ XEvent.startElement n attrs ns :: next :: rest) = .ok out) :
    ((∀ c ∈ oc, c.kind = ChunkKind.iTXt → c.keyword = "openbadges" →
        c.text = P) ∧
      oc.countP (fun c => decide (c.kind = ChunkKind.iTXt ∧
        c.keyword = "openbadges")) =
      max 1 (chunks.countP (fun c => decide (c.kind = ChunkKind.iTXt ∧
        c.keyword = "openbadges" ∧ c.text = P)))) ∧
    (∃ m tail, out = pre.filterMap writerEvent ++
      XEvent.startElement n attrs (withObNs ns) :: m :: tail ∧
      assertLikeP P m = true) :=
  ⟨⟨(png_rewrite_idem chunks frames P b1 oc ofr hpng).2.1,
    png_rewrite_marker_count chunks frames P b1 oc ofr hpng⟩,
   rewrite_shape P b2 pre n attrs ns next rest out hpre hn hsvg⟩

/-- Witness for C3 (amended) at an unmarked PNG and an unmarked SVG. -/
theorem claim_C3_witness :
    ((∀ c ∈ [TextChunk.mk ChunkKind.iTXt "openbadges" "P"],
        c.kind = ChunkKind.iTXt → c.keyword = "openbadges" →
        c.text = "P") ∧
      ([TextChunk.mk ChunkKind.iTXt "openbadges" "P"] :
        List TextChunk).countP
        (fun c => decide (c.kind = ChunkKind.iTXt ∧
          c.keyword = "openbadges")) =
      max 1 (([] : List TextChunk).countP
        (fun c => decide (c.kind = ChunkKind.iTXt ∧
          c.keyword = "openbadges" ∧ c.text = "P")))) ∧
    (∃ m tail,
      [XEvent.startElement ⟨none, "svg", some svgNS⟩ []
        [("", svgNS), ("openbadges", obNS)],
       newAssertStart "P", XEvent.endElement obAssertName, svgRootEndEv] =
      ([] : List XEvent).filterMap writerEvent ++
      XEvent.startElement ⟨none, "svg", some svgNS⟩ []
        (withObNs [("", svgNS)]) :: m :: tail ∧
      assertLikeP "P" m = true) :=
  claim_C3 [] [] "P" false [⟨ChunkKind.iTXt, "openbadges", "P"⟩] [] rfl
    false [] ⟨none, "svg", some svgNS⟩ [] [("", svgNS)] svgRootEndEv []
    [XEvent.startElement ⟨none, "svg", some svgNS⟩ []
      [("", svgNS), ("openbadges", obNS)],
     newAssertStart "P", XEvent.endElement obAssertName, svgRootEndEv]
    (by decide) (by decide) rfl

/-- Counterexample to C4 as stated: a source whose iTXt chunk precedes its
tEXt chunk is re-emitted with the tEXt chunk first — the relative order
between chunks of different kinds is not preserved (the kept chunks, in
source order, are not a subsequence of the output). -/
theorem claim_C4_counterexample :
    Png.rewrite [⟨ChunkKind.iTXt, "a", "1"⟩, ⟨ChunkKind.tEXt, "b", "2"⟩]
      [] "v" false =
      .ok ([⟨ChunkKind.tEXt, "b", "2"⟩, ⟨ChunkKind.iTXt, "a", "1"⟩,
            ⟨ChunkKind.iTXt, "openbadges", "v"⟩], []) ∧
    ¬ List.Sublist
        [⟨ChunkKind.iTXt, "a", "1"⟩, ⟨ChunkKind.tEXt, "b", "2"⟩]
        [⟨ChunkKind.tEXt, "b", "2"⟩, ⟨ChunkKind.iTXt, "a", "1"⟩,
         TextChunk.mk ChunkKind.iTXt "openbadges" "v"] :=
  ⟨rfl, by decide⟩

/-- C4 (amended): on success every non-marker text chunk is re-emitted
with keyword, kind and text unchanged, and relative order is preserved
within each chunk kind (the output groups chunks by kind: tEXt, then
zTXt, then iTXt), though not across kinds. -/
theorem claim_C4
    (chunks : List TextChunk) (frames : List (Option (List Nat)))
    (v : String) (b : Bool) (oc : List TextChunk) (ofr : List (List Nat))
    (h : Png.rewrite chunks frames v b = .ok (oc, ofr)) :
    uncompressedLatin1Text oc = uncompressedLatin1Text chunks ∧
    compressedLatin1Text oc = compressedLatin1Text chunks ∧
    (utf8Text oc).filter (fun c => !decide (c.keyword = "openbadges")) =
      (utf8Text chunks).filter
        (fun c => !decide (c.keyword = "openbadges")) :=
  png_rewrite_preserves chunks frames v b oc ofr h

/-- Witness for C4 (amended) at a concrete mixed-kind inventory. -/
theorem claim_C4_witness :
    uncompressedLatin1Text [⟨ChunkKind.tEXt, "b", "2"⟩,
        ⟨ChunkKind.iTXt, "a", "1"⟩, ⟨ChunkKind.iTXt, "openbadges", "v"⟩] =
      uncompressedLatin1Text [⟨ChunkKind.iTXt, "a", "1"⟩,
        ⟨ChunkKind.tEXt, "b", "2"⟩] ∧
    compressedLatin1Text [⟨ChunkKind.tEXt, "b", "2"⟩,
        ⟨ChunkKind.iTXt, "a", "1"⟩, ⟨ChunkKind.iTXt, "openbadges", "v"⟩] =
      compressedLatin1Text [⟨ChunkKind.iTXt, "a", "1"⟩,
        ⟨ChunkKind.tEXt, "b", "2"⟩] ∧
    (utf8Text [⟨ChunkKind.tEXt, "b", "2"⟩, ⟨ChunkKind.iTXt, "a", "1"⟩,
        ⟨ChunkKind.iTXt, "openbadges", "v"⟩]).filter
        (fun c => !decide (c.keyword = "openbadges")) =
      (utf8Text [⟨ChunkKind.iTXt, "a", "1"⟩,
        ⟨ChunkKind.tEXt, "b", "2"⟩]).filter
        (fun c => !decide (c.keyword = "openbadges")) :=
  claim_C4 [⟨ChunkKind.iTXt, "a", "1"⟩, ⟨ChunkKind.tEXt, "b", "2"⟩] []
    "v" false
    [⟨ChunkKind.tEXt, "b", "2"⟩, ⟨ChunkKind.iTXt, "a", "1"⟩,
     ⟨ChunkKind.iTXt, "openbadges", "v"⟩] [] rfl

/-- Counterexample to C5 as stated: with a nested `<svg>` element deeper
in the document, events after the root's follower are not all forwarded
unchanged — a second marker pair is injected after the nested `<svg>`
start element (the input holds no marker event, the output holds two). -/
theorem claim_C5_counterexample :
    (Svg.rewrite "P" false [svgRootEv, rectEv, rectEndEv, svgRootEv,
        rectEv, rectEndEv, svgRootEndEv, svgRootEndEv]).map
      (fun o => o.countP (fun e => decide (e = newAssertStart "P"))) =
      .ok 2 ∧
    ([svgRootEv, rectEv, rectEndEv, svgRootEv, rectEv, rectEndEv,
      svgRootEndEv, svgRootEndEv] : List XEvent).countP
      (fun e => decide (e = newAssertStart "P")) = 0 :=
  ⟨rfl, rfl⟩

/-- C5 (amended): once the root's follower has been handled, the
remaining events are forwarded unchanged until end of document provided
none of them passes the `add_namespace` root test; any later such start
element (for example a nested `<svg>`) re-arms the state machine
instead. -/
theorem claim_C5 (P : String) (b : Bool) (pre : List XEvent)
    (n : QName) (attrs ns : List (String × String)) (next : XEvent)
    (rest : List XEvent) (out : List XEvent)
    (hpre : ∀ e ∈ pre, isSvgCondStart e = false)
    (hn : isSvgStartName n = true)
    (hnext : isSvgCondStart next = false)
    (hrest : ∀ e ∈ rest, isSvgCondStart e = false)
    (h : Svg.rewrite P b
      (pre ++ XEvent.startElement n attrs ns :: next :: rest) = .ok out) :
    ∃ w, svgStep P b true next = .ok (w, false) ∧
      out = pre.filterMap writerEvent ++
        XEvent.startElement n attrs (withObNs ns) ::
        (w ++ rest.filterMap writerEvent) :=
  svg_rewrite_stream_after P b pre n attrs ns next rest out hpre hn hnext
    hrest h

/-- Witness for C5 (amended) at a concrete SVG without nested roots. -/
theorem claim_C5_witness :
    ∃ w, svgStep "P" false true rectEv = .ok (w, false) ∧
      [XEvent.startElement ⟨none, "svg", some svgNS⟩ []
        [("", svgNS), ("openbadges", obNS)],
       newAssertStart "P", XEvent.endElement obAssertName, rectEv,
       rectEndEv, svgRootEndEv] =
      ([] : List XEvent).filterMap writerEvent ++
      XEvent.startElement ⟨none, "svg", some svgNS⟩ []
        (withObNs [("", svgNS)]) ::
      (w ++ [rectEndEv, svgRootEndEv].filterMap writerEvent) :=
  claim_C5 "P" false [] ⟨none, "svg", some svgNS⟩ [] [("", svgNS)] rectEv
    [rectEndEv, svgRootEndEv]
    [XEvent.startElement ⟨none, "svg", some svgNS⟩ []
      [("", svgNS), ("openbadges", obNS)],
     newAssertStart "P", XEvent.endElement obAssertName, rectEv,
     rectEndEv, svgRootEndEv]
    (by decide) (by decide) (by decide) (by decide) rfl

/-- Counterexample to C6 as stated: a PNG whose very first frame fails to
decode still rewrites to `Ok` (with no frames copied) — the decode
failure is silently swallowed by the `while let Ok` frame loop, not
surfaced as an error. -/
theorem claim_C6_counterexample :
    Png.rewrite [] [none] "v" true =
      .ok ([⟨ChunkKind.iTXt, "openbadges", "v"⟩], []) ∧
    ∀ err : RewriteError, Png.rewrite [] [none] "v" true ≠ .error err :=
  ⟨rfl, fun _ h => Except.noConfusion ((h.symm.trans
    (rfl : Png.rewrite [] [none] "v" true =
      .ok ([⟨ChunkKind.iTXt, "openbadges", "v"⟩], []))))⟩

/-- C6 (amended): a frame-decoding failure after the header does not make
the rewrite fail — whenever the chunk processing succeeds for some frame
stream, the same source with a frame stream failing after `fs1` still
returns `Ok`, with exactly the frames decoded before the failure and the
same chunk output. -/
theorem claim_C6
    (chunks : List TextChunk) (frames : List (Option (List Nat)))
    (v : String) (b : Bool) (oc : List TextChunk) (ofr : List (List Nat))
    (h : Png.rewrite chunks frames v b = .ok (oc, ofr))
    (fs1 : List (List Nat)) (rest : List (Option (List Nat))) :
    Png.rewrite chunks (fs1.map some ++ none :: rest) v b =
      .ok (oc, fs1) :=
  png_rewrite_frame_error_ok chunks frames v b oc ofr h fs1 rest

/-- Witness for C6 (amended): one good frame, then a failure. -/
theorem claim_C6_witness :
    Png.rewrite [] ([[1, 2]].map some ++ none :: []) "v" true =
      .ok ([⟨ChunkKind.iTXt, "openbadges", "v"⟩], [[1, 2]]) :=
  claim_C6 [] [] "v" true [⟨ChunkKind.iTXt, "openbadges", "v"⟩] [] rfl
    [[1, 2]] []

/-- Counterexample to C7 as stated: overwriting an existing marker whose
start element also carries an `id` attribute emits a fresh element whose
attribute list is exactly `verify`; the `id` attribute of the input
element is dropped, not preserved. -/
theorem claim_C7_counterexample :
    (Svg.rewrite "B" false [svgRootEv, assertionEvA, assertionEndEv,
        svgRootEndEv]).map
      (fun o => attrsOf (o.getD 1 XEvent.endDocument)) =
      .ok [("verify", "B")] ∧
    ("id", "x") ∈ attrsOf assertionEvA :=
  ⟨rfl, by decide⟩

/-- C7 (amended): in permissive mode, an existing first-child marker with
a different payload is replaced by a fresh `openbadges:assertion` start
element whose only attribute is `verify` with the proposed value (all
other attributes of the existing element are dropped), and the remainder
of the stream — including the matching end element — is forwarded with
the flag down. -/
theorem claim_C7 (P A : String) (pre : List XEvent)
    (n : QName) (attrs ns : List (String × String))
    (na : QName) (attrsA nsA : List (String × String)) (rest : List XEvent)
    (hpre : ∀ e ∈ pre, isSvgCondStart e = false)
    (hn : isSvgStartName n = true)
    (hob : isObAssert (.startElement na attrsA nsA) = true)
    (hval : verifyAttrVal (.startElement na attrsA nsA) = some A)
    (hne : A ≠ P) :
    Svg.rewrite P false (pre ++ XEvent.startElement n attrs ns ::
      XEvent.startElement na attrsA nsA :: rest) =
      (Svg.rewriteLoop P false false rest).map
        (fun t => pre.filterMap writerEvent ++
          XEvent.startElement n attrs (withObNs ns) ::
          newAssertStart P :: t) :=
  svg_rewrite_overwrite P A pre n attrs ns na attrsA nsA rest hpre hn hob
    hval hne

/-- Witness for C7 (amended) at the concrete marked SVG. -/
theorem claim_C7_witness :
    Svg.rewrite "B" false ([] ++ XEvent.startElement
        ⟨none, "svg", some svgNS⟩ [] [("", svgNS)] ::
      XEvent.startElement ⟨some "openbadges", "assertion", some obNS⟩
        [("verify", "A"), ("id", "x")] [("", svgNS), ("openbadges", obNS)] ::
      [assertionEndEv, svgRootEndEv]) =
      (Svg.rewriteLoop "B" false false [assertionEndEv, svgRootEndEv]).map
        (fun t => ([] : List XEvent).filterMap writerEvent ++
          XEvent.startElement ⟨none, "svg", some svgNS⟩ []
            (withObNs [("", svgNS)]) ::
          newAssertStart "B" :: t) :=
  claim_C7 "B" "A" [] ⟨none, "svg", some svgNS⟩ [] [("", svgNS)]
    ⟨some "openbadges", "assertion", some obNS⟩
    [("verify", "A"), ("id", "x")] [("", svgNS), ("openbadges", obNS)]
    [assertionEndEv, svgRootEndEv]
    (by decide) (by decide) (by decide) (by decide) (by decide)

/-- Counterexample to C8 as stated: when the input root already binds the
prefix `openbadges` to a different URI, the emitted root keeps that
binding untouched — the mapping `openbadges -> "http://openbadges.org"`
is not present on the emitted root element. -/
theorem claim_C8_counterexample :
    (Svg.rewrite "P" false [svgRootOtherNsEv, rectEv, rectEndEv,
        svgRootEndEv]).map (fun o => nsOf (o.headD XEvent.endDocument)) =
      .ok [("", svgNS), ("openbadges", "http://other.org")] ∧
    ("openbadges", obNS) ∉
      ([("", svgNS), ("openbadges", "http://other.org")] :
        List (String × String)) :=
  ⟨rfl, by decide⟩

/-- C8 (amended): on the root element the emitted namespace mapping is
`withObNs ns`: the prefix `openbadges` is guaranteed declared — bound to
`"http://openbadges.org"` when it was absent, left with its existing
binding (to whatever URI) otherwise — all attributes and other
declarations are untouched, and the root carries exactly one
`openbadges` declaration when the input carried at most one. -/
theorem claim_C8 (P : String) (b : Bool) (pre : List XEvent)
    (n : QName) (attrs ns : List (String × String)) (next : XEvent)
    (rest : List XEvent) (out : List XEvent)
    (hpre : ∀ e ∈ pre, isSvgCondStart e = false)
    (hn : isSvgStartName n = true)
    (hcount : ns.countP (fun m => decide (m.1 = "openbadges")) ≤ 1)
    (h : Svg.rewrite P b
      (pre ++ XEvent.startElement n attrs ns :: next :: rest) = .ok out) :
    ∃ m tail, out = pre.filterMap writerEvent ++
      XEvent.startElement n attrs (withObNs ns) :: m :: tail ∧
      nsContainsOb (withObNs ns) = true ∧
      (nsContainsOb ns = true → withObNs ns = ns) ∧
      (nsContainsOb ns = false →
        withObNs ns = ns ++ [("openbadges", obNS)]) ∧
      (withObNs ns).countP (fun m => decide (m.1 = "openbadges")) = 1 := by
  obtain ⟨m, tail, hshape, _⟩ :=
    rewrite_shape P b pre n attrs ns next rest out hpre hn h
  exact ⟨m, tail, hshape, withObNs_contains ns, withObNs_of_contains ns,
    withObNs_of_not_contains ns, withObNs_count ns hcount⟩

/-- Witness for C8 (amended) at a root with no `openbadges` binding. -/
theorem claim_C8_witness :
    ∃ m tail,
      [XEvent.startElement ⟨none, "svg", some svgNS⟩ []
        [("", svgNS), ("openbadges", obNS)],
       newAssertStart "P", XEvent.endElement obAssertName, svgRootEndEv] =
      ([] : List XEvent).filterMap writerEvent ++
      XEvent.startElement ⟨none, "svg", some svgNS⟩ []
        (withObNs [("", svgNS)]) :: m :: tail ∧
      nsContainsOb (withObNs [("", svgNS)]) = true ∧
      (nsContainsOb [("", svgNS)] = true →
        withObNs [("", svgNS)] = [("", svgNS)]) ∧
      (nsContainsOb [("", svgNS)] = false →
        withObNs [("", svgNS)] = [("", svgNS)] ++ [("openbadges", obNS)]) ∧
      (withObNs [("", svgNS)]).countP
        (fun m => decide (m.1 = "openbadges")) = 1 :=
  claim_C8 "P" false [] ⟨none, "svg", some svgNS⟩ [] [("", svgNS)]
    svgRootEndEv []
    [XEvent.startElement ⟨none, "svg", some svgNS⟩ []
      [("", svgNS), ("openbadges", obNS)],
     newAssertStart "P", XEvent.endElement obAssertName, svgRootEndEv]
    (by decide) (by decide) (by decide) rfl

/-- C9: file-path classification is a pure function of the path value:
an extension lowercasing to `"svg"` yields `ImageType.svg`, one
lowercasing to `"png"` yields `ImageType.png`, and a missing extension,
a non-UTF-8 extension or any other extension yields the corresponding
`ToImageTypeError` — by the classifier's very type, never an IO error,
and no file is touched. -/
theorem claim_C9 (p : PathModel) :
    (ImageType.tryFrom p = .ok ImageType.svg ↔
      ∃ os s, p.extension = some os ∧ os.toStr = some s ∧
        strToLower s = "svg") ∧
    (ImageType.tryFrom p = .ok ImageType.png ↔
      ∃ os s, p.extension = some os ∧ os.toStr = some s ∧
        strToLower s = "png") ∧
    (p.extension = none →
      ImageType.tryFrom p =
        .error (.extensionExtraction "No file extension present")) ∧
    (∀ os, p.extension = some os → os.toStr = none →
      ImageType.tryFrom p =
        .error (.extensionExtraction
          "File extension is not UTF-8 compatible")) ∧
    (∀ os s, p.extension = some os → os.toStr = some s →
      strToLower s ≠ "svg" → strToLower s ≠ "png" →
      ImageType.tryFrom p = .error (.unsupported s)) := by
  obtain ⟨oext⟩ := p
  cases oext with
  | none =>
    refine ⟨?_, ?_, fun _ => rfl, ?_, ?_⟩
    · simp [ImageType.tryFrom]
    · simp [ImageType.tryFrom]
    · intro os hos; exact absurd hos (by simp)
    · intro os s hos; exact absurd hos (by simp)
  | some os =>
    obtain ⟨ostr⟩ := os
    cases ostr with
    | none =>
      refine ⟨?_, ?_, ?_, ?_, ?_⟩
      · simp [ImageType.tryFrom]
      · simp [ImageType.tryFrom]
      · intro hc; exact absurd hc (by simp)
      · intro os hos _
        simp [ImageType.tryFrom]
      · intro os s hos hs
        simp only [Option.some.injEq] at hos
        rw [← hos] at hs
        exact absurd hs (by simp)
    | some s =>
      by_cases hsvg : strToLower s = "svg"
      · refine ⟨?_, ?_, ?_, ?_, ?_⟩
        · simp [ImageType.tryFrom, hsvg]
        · constructor
          · intro hc
            rw [ImageType.tryFrom] at hc
            simp only [hsvg, if_pos rfl] at hc
            exact absurd hc (by simp)
          · rintro ⟨os2, s2, hos2, hs2, hlow⟩
            simp only [Option.some.injEq] at hos2
            rw [← hos2] at hs2
            simp only [Option.some.injEq] at hs2
            rw [← hs2] at hlow
            rw [hsvg] at hlow
            exact absurd hlow (by decide)
        · intro hc; exact absurd hc (by simp)
        · intro os2 hos2 hn2
          simp only [Option.some.injEq] at hos2
          rw [← hos2] at hn2
          exact absurd hn2 (by simp)
        · intro os2 s2 hos2 hs2 hn2 _
          simp only [Option.some.injEq] at hos2
          rw [← hos2] at hs2
          simp only [Option.some.injEq] at hs2
          rw [← hs2] at hn2
          exact absurd hsvg hn2
      · by_cases hpng : strToLower s = "png"
        · refine ⟨?_, ?_, ?_, ?_, ?_⟩
          · constructor
            · intro hc
              rw [ImageType.tryFrom] at hc
              simp only [hsvg, hpng] at hc
              simp at hc
            · rintro ⟨os2, s2, hos2, hs2, hlow⟩
              simp only [Option.some.injEq] at hos2
              rw [← hos2] at hs2
              simp only [Option.some.injEq] at hs2
              rw [← hs2] at hlow
              rw [hpng] at hlow
              exact absurd hlow (by decide)
          · simp [ImageType.tryFrom, hsvg, hpng]
          · intro hc; exact absurd hc (by simp)
          · intro os2 hos2 hn2
            simp only [Option.some.injEq] at hos2
            rw [← hos2] at hn2
            exact absurd hn2 (by simp)
          · intro os2 s2 hos2 hs2 _ hn2
            simp only [Option.some.injEq] at hos2
            rw [← hos2] at hs2
            simp only [Option.some.injEq] at hs2
            rw [← hs2] at hn2
            exact absurd hpng hn2
        · refine ⟨?_, ?_, ?_, ?_, ?_⟩
          · simp [ImageType.tryFrom, hsvg, hpng]
          · simp [ImageType.tryFrom, hsvg, hpng]
          · intro hc; exact absurd hc (by simp)
          · intro os2 hos2 hn2
            simp only [Option.some.injEq] at hos2
            rw [← hos2] at hn2
            exact absurd hn2 (by simp)
          · intro os2 s2 hos2 hs2 _ _
            simp only [Option.some.injEq] at hos2
            rw [← hos2] at hs2
            simp only [Option.some.injEq] at hs2
            rw [← hs2]
            simp [ImageType.tryFrom, hsvg, hpng]

/-- Witness for C9: the case-insensitive match and the unsupported
`.gif` scenario at concrete extensions. -/
theorem claim_C9_witness :
    ImageType.tryFrom ⟨some ⟨some "SVG"⟩⟩ = .ok ImageType.svg ∧
    ImageType.tryFrom ⟨some ⟨some "gif"⟩⟩ =
      .error (.unsupported "gif") :=
  ⟨(claim_C9 ⟨some ⟨some "SVG"⟩⟩).1.mpr ⟨⟨some "SVG"⟩, "SVG", rfl, rfl,
      by decide⟩,
   (claim_C9 ⟨some ⟨some "gif"⟩⟩).2.2.2.2 ⟨some "gif"⟩ "gif" rfl rfl
     (by decide) (by decide)⟩

/-- Counterexample to C10 as stated: a well-formed document whose root is
`<html>` (not `<svg>`) but which contains a nested `<svg>` element does
not pass through unchanged — a marker pair and a namespace declaration
are injected at the nested element. -/
theorem claim_C10_counterexample :
    (Svg.rewrite "P" false [htmlRootEv, svgRootEv, svgRootEndEv,
        htmlRootEndEv]).map
      (fun o => o.countP (fun e => decide (e = newAssertStart "P"))) =
      .ok 1 ∧
    isSvgCondStart htmlRootEv = false ∧
    ([htmlRootEv, svgRootEv, svgRootEndEv, htmlRootEndEv] :
      List XEvent).countP
      (fun e => decide (e = newAssertStart "P")) = 0 :=
  ⟨rfl, rfl, rfl⟩

/-- C10 (amended): a well-formed XML document none of whose elements
passes the `add_namespace` root test (local name `svg`, case-insensitive,
in no namespace or the SVG namespace) rewrites to `Ok` and passes through
unchanged modulo the writer conversion: no assertion element and no
namespace declaration is injected — the patcher never checks that the
input is actually an SVG. -/
theorem claim_C10 (P : String) (b : Bool) (es : List XEvent)
    (hes : ∀ e ∈ es, isSvgCondStart e = false) :
    Svg.rewrite P b es = .ok (es.filterMap writerEvent) := by
  rw [svg_rewrite_def]
  exact rewriteLoop_stream P b es hes

/-- Witness for C10 (amended) at a concrete non-SVG document. -/
theorem claim_C10_witness :
    Svg.rewrite "P" false [XEvent.startDocument, htmlRootEv,
      XEvent.characters "hi", htmlRootEndEv, XEvent.endDocument] =
      .ok ([XEvent.startDocument, htmlRootEv, XEvent.characters "hi",
        htmlRootEndEv, XEvent.endDocument].filterMap writerEvent) :=
  claim_C10 "P" false [XEvent.startDocument, htmlRootEv,
    XEvent.characters "hi", htmlRootEndEv, XEvent.endDocument]
    (by decide)
